import Mathlib

/-!
Verification development for the PDF template engine
(`app/utils/text_detection.py` and `app/services/template_service.py`).

The Python code is shallowly embedded: coordinates and font sizes (Python
floats) are modelled as rationals, Python strings as `String`, Python
`None`-able values as `Option`, and raised exceptions as `Except`.
External handles (PyMuPDF page objects, the OCR engine) are modelled as
records of effect results, one field per primitive the code calls.
-/

namespace PdfEngine

/-! ## Python string primitives

`str.split(sep)`, `str.strip()` and `sep.join(...)` are re-implemented
structurally so that they compute by kernel reduction.  Python's default
strip set is ` \t\n\r\x0b\x0c`. -/

def isPyWs (c : Char) : Bool :=
  (c == ' ') || (c == '\t') || (c == '\n') || (c == '\r') ||
    (c == Char.ofNat 11) || (c == Char.ofNat 12)

/-- Python `s.strip()`. -/
def pyStrip (s : String) : String :=
  String.mk (((s.toList.dropWhile isPyWs).reverse.dropWhile isPyWs).reverse)

/-- Python `s.split(sep)` for a one-character separator (keeps empty pieces,
returns `[""]` on the empty string, exactly like `str.split("\n")`). -/
def pySplitOnChar (sep : Char) (s : String) : List String :=
  (s.toList.foldr
    (fun c (acc : List (List Char)) =>
      if c = sep then [] :: acc
      else
        match acc with
        | h :: t => (c :: h) :: t
        | [] => [[c]])
    [[]]).map (fun cs => String.mk cs)

/-- Python `sep.join(xs)`. -/
def pyJoin (sep : String) : List String → String
  | [] => ""
  | x :: rest => rest.foldl (fun acc y => acc ++ sep ++ y) x

/-! ## Geometry -/

/-- `fitz.Rect`: `(x0, y0, x1, y1)` in document points. -/
structure Rect where
  x0 : ℚ
  y0 : ℚ
  x1 : ℚ
  y1 : ℚ
deriving DecidableEq, Repr

/-- `fitz.Rect.intersects`: the two rectangles share a non-empty rectangle. -/
def Rect.intersects (a b : Rect) : Bool :=
  decide (max a.x0 b.x0 < min a.x1 b.x1) && decide (max a.y0 b.y0 < min a.y1 b.y1)

/-! ## Detection data model -/

/-- A raised Python exception, abstracted to a tag. -/
inductive PyErr where
  | err (msg : String)
  | typeError
deriving DecidableEq, Repr

/-- One entry of the `lines_data` lists produced by the detector strategies.
Mirrors the dict keys each strategy writes: `text` and `baseline` are always
present; `y0`/`y1`/`size`/`font`/`color` only for some strategies. -/
structure LineRec where
  text : String
  baseline : ℚ
  y0 : Option ℚ := none
  y1 : Option ℚ := none
  size : Option ℚ := none
  font : Option String := none
  color : Option ℤ := none
deriving DecidableEq, Repr

/-- A form-field widget as seen by the code: its rectangle and its
`field_value` (the empty string models a falsy/absent value). -/
structure Widget where
  rect : Rect
  field_value : String
deriving DecidableEq, Repr

/-- A span of the `page.get_text("dict")` structure.  Fields the code reads
with `.get(key, default)` are `Option`s (`none` = key absent). -/
structure Span where
  text : String
  origin : Option (ℚ × ℚ) := none
  size : Option ℚ := none
  font : Option String := none
  color : Option ℤ := none
deriving DecidableEq, Repr

/-- A 4-tuple bounding box `[b0, b1, b2, b3]`. -/
structure Quad where
  b0 : ℚ
  b1 : ℚ
  b2 : ℚ
  b3 : ℚ
deriving DecidableEq, Repr

/-- A line of the text dict; `bbox` is read with `.get("bbox", [0,0,0,0])`. -/
structure TDLine where
  spans : List Span
  bbox : Option Quad := none
deriving DecidableEq, Repr

/-- A block of the text dict; image blocks have no `"lines"` key (`none`). -/
structure Block where
  lines : Option (List TDLine) := none
deriving DecidableEq, Repr

/-- A word tuple from `page.get_text("words")`: `(x0, y0, x1, y1, text, ...)`. -/
structure Word where
  x0 : ℚ
  y0 : ℚ
  x1 : ℚ
  y1 : ℚ
  text : String
deriving DecidableEq, Repr

/-- The page handle.  Each field is the result of one effectful PyMuPDF / OCR
primitive the code calls; `Except.error` models the call raising.  `ocr` is
the raw string produced by rendering the clip and running `pytesseract` on
it.  `redactOk` tells whether `add_redact_annot`/`apply_redactions` succeed
(used only by the generator). -/
structure Page where
  widgets : Except PyErr (List Widget)
  textDict : Rect → Except PyErr (List Block)
  words : Rect → Except PyErr (List Word)
  ocr : Rect → Except PyErr String
  redactOk : Bool

/-! ## Stable sort by key (Python `list.sort(key=...)` / `sorted`) -/

/-- Insert before the first element with a strictly larger key (equal keys
keep their relative order, like Python's stable sort). -/
def orderedIns {α : Type} (key : α → ℚ) (a : α) : List α → List α
  | [] => [a]
  | b :: t => if key a ≤ key b then a :: b :: t else b :: orderedIns key a t

/-- Ascending stable sort by a rational key. -/
def sortByKey {α : Type} (key : α → ℚ) (l : List α) : List α :=
  l.foldr (orderedIns key) []

/-! ## Detection strategies (`TextDetector` in `text_detection.py`) -/

/-- The single line record synthesized by the form-field strategy:
`{'text': text, 'baseline': rect.y1 - 2, 'size': rect.y1 - rect.y0}`. -/
def widgetLine (rect : Rect) (v : String) : LineRec :=
  { text := v, baseline := rect.y1 - 2, size := some (rect.y1 - rect.y0) }

/-- Strategy 1, `_detect_from_widgets`: first widget intersecting the
rectangle that carries a non-empty value wins; it synthesizes one line with
`baseline = rect.y1 - 2` and `size = rect` height. -/
def detectFromWidgets (ws : List Widget) (rect : Rect) : String × List LineRec :=
  match ws with
  | [] => ("", [])
  | w :: rest =>
    if w.rect.intersects rect ∧ w.field_value ≠ "" then
      (w.field_value, [widgetLine rect w.field_value])
    else detectFromWidgets rest rect

/-- One text-dict line to a `LineRec` (skipped when its space-joined span
text is blank after stripping). -/
def tdLineRec (l : TDLine) : Option LineRec :=
  let lineText := pyJoin " " (l.spans.map Span.text)
  if pyStrip lineText = "" then none
  else
    let bbox := l.bbox.getD ⟨0, 0, 0, 0⟩
    let fs := l.spans.head?
    some
      { text := pyStrip lineText
        baseline := ((fs.bind Span.origin).map Prod.snd).getD bbox.b3
        y0 := some bbox.b1
        y1 := some bbox.b3
        size := some ((fs.bind Span.size).getD 10)
        font := some ((fs.bind Span.font).getD "helv")
        color := some ((fs.bind Span.color).getD 0) }

/-- Sort key used by `_detect_from_text_dict` and for the ordering
invariant: `y0` when present, else `baseline`. -/
def lineKey (r : LineRec) : ℚ := r.y0.getD r.baseline

/-- Strategy 2, `_detect_from_text_dict`. -/
def detectFromTextDict (blocks : List Block) : String × List LineRec :=
  let allLines := blocks.foldl
    (fun acc blk =>
      match blk.lines with
      | none => acc
      | some lns => acc ++ lns.filterMap tdLineRec) []
  let sorted := sortByKey lineKey allLines
  if sorted = [] then ("", [])
  else (pyJoin "\n" (sorted.map LineRec.text), sorted)

/-- Vertical center of a word box. -/
def wordCenter (w : Word) : ℚ := (w.y0 + w.y1) / 2

/-- Add one word to the ordered cluster list (`lines` dict in the code):
join the first cluster whose first-seen center key is within 5 points of the
word's center, else append a new cluster keyed by the word's center. -/
def addWordToClusters (w : Word) : List (ℚ × List Word) → List (ℚ × List Word)
  | [] => [(wordCenter w, [w])]
  | (k, ms) :: rest =>
    if |k - wordCenter w| < 5 then (k, ms ++ [w]) :: rest
    else (k, ms) :: addWordToClusters w rest

/-- The greedy, order-dependent clustering of `_detect_from_word_clusters`. -/
def clusterWords (ws : List Word) : List (ℚ × List Word) :=
  ws.foldl (fun cs w => addWordToClusters w cs) []

/-- Exact-key lookup in the cluster list (`lines[y_center]`). -/
def assocFind (cs : List (ℚ × List Word)) (k : ℚ) : List Word :=
  match cs.find? (fun kv => decide (kv.1 = k)) with
  | some kv => kv.2
  | none => []

/-- Build the line record of one cluster: members sorted left-to-right by
`x0`, texts space-joined, `y0`/`y1` the min/max over members,
`baseline = y1 - 0.2*(y1-y0)`, `size = 0.8*(y1-y0)`.  The `[]` case is
unreachable: clusters always hold at least the word that created them. -/
def mkClusterLine (ms : List Word) : LineRec :=
  let ws := sortByKey (fun w => w.x0) ms
  let text := pyJoin " " (ws.map Word.text)
  match ws with
  | [] => { text := text, baseline := 0 }
  | w :: rest =>
    let y0 := rest.foldl (fun m v => min m v.y0) w.y0
    let y1 := rest.foldl (fun m v => max m v.y1) w.y1
    { text := text
      baseline := y1 - (y1 - y0) * 0.2
      y0 := some y0
      y1 := some y1
      size := some ((y1 - y0) * 0.8) }

/-- Clusters in output order (ascending first-seen center key, the order the
code emits lines in), each tagged with its key. -/
def clusteredTagged (ws : List Word) : List (ℚ × LineRec) :=
  let cs := clusterWords ws
  (sortByKey id (cs.map Prod.fst)).map (fun k => (k, mkClusterLine (assocFind cs k)))

/-- Strategy 3, `_detect_from_word_clusters`. -/
def detectFromWordClusters (ws : List Word) : String × List LineRec :=
  if ws = [] then ("", [])
  else
    let lines := (clusteredTagged ws).map Prod.snd
    (pyJoin "\n" (lines.map LineRec.text), lines)

/-- The record built for non-blank OCR line `i`:
`baseline = rect.y0 + (i+1)*h - 2` and `size = 0.8*h`. -/
def ocrLine (rect : Rect) (h : ℚ) (i : ℕ) (s : String) : LineRec :=
  { text := pyStrip s
    baseline := rect.y0 + ((i : ℚ) + 1) * h - 2
    size := some (h * 0.8) }

/-- The OCR strategy's per-line loop: blank lines are skipped but still
advance the index. -/
def ocrBuild (rect : Rect) (h : ℚ) : ℕ → List String → List LineRec
  | _, [] => []
  | i, s :: rest =>
    if pyStrip s = "" then ocrBuild rect h (i + 1) rest
    else ocrLine rect h i s :: ocrBuild rect h (i + 1) rest

/-- Strategy 4, `_detect_from_ocr`: its whole body sits in a `try`, so a
raising OCR engine yields `("", [])` rather than an error. -/
def detectFromOcr (page : Page) (rect : Rect) : String × List LineRec :=
  match page.ocr rect with
  | .error _ => ("", [])
  | .ok raw =>
    let t := pyStrip raw
    if t = "" then ("", [])
    else
      let ls := pySplitOnChar '\n' t
      let h := (rect.y1 - rect.y0) / ((max ls.length 1 : ℕ) : ℚ)
      (t, ocrBuild rect h 0 ls)

/-- `TextDetector.detect_text`.  `ocrAvailable` models the module-level
`OCR_AVAILABLE` flag.  Note that only the OCR strategy catches exceptions
internally, and that the final fall-through returns whatever the last
strategy left in `lines_data`. -/
def detect_text (ocrAvailable : Bool) (page : Page) (rect : Rect) :
    Except PyErr (String × String × List LineRec) :=
  match page.widgets with
  | .error e => .error e
  | .ok ws =>
    let (t1, l1) := detectFromWidgets ws rect
    if t1 ≠ "" then .ok (t1, "Form Field", l1)
    else
      match page.textDict rect with
      | .error e => .error e
      | .ok blocks =>
        let (t2, l2) := detectFromTextDict blocks
        if t2 ≠ "" then .ok (t2, "Precise Layout", l2)
        else
          match page.words rect with
          | .error e => .error e
          | .ok wds =>
            let (t3, l3) := detectFromWordClusters wds
            if t3 ≠ "" then .ok (t3, "Clustered Words", l3)
            else if ocrAvailable then
              let (t4, l4) := detectFromOcr page rect
              if t4 ≠ "" then .ok (t4, "OCR", l4)
              else .ok (t4, "Empty", l4)
            else .ok (t3, "Empty", l3)

/-! ## Styles (`PlaceholderStyle` schema and the style dicts of
`template_service.py`) -/

/-- The pydantic `PlaceholderStyle` model with its schema defaults.
Constructing one from a partial request fills unspecified fields with these
defaults. -/
structure PStyle where
  font_size : Option ℚ := none
  font_name : String := "helv"
  font_weight : String := "normal"
  color : String := "#000000"
  opacity : ℚ := 1
  background_color : Option String := some "#FFFFFF"
  background_opacity : ℚ := 1
  background_width : Option ℚ := none
  background_height : Option ℚ := none
  padding : ℚ := 1
deriving DecidableEq, Repr

/-- A style dict as stored/passed around.  The outer `Option` is key
presence; for schema-nullable fields the inner `Option` is the stored value
(`none` = Python `None`).  `dict.get(key, default)` returns the default only
when the key is absent, not when it holds `None`. -/
structure StyleDict where
  font_size : Option (Option ℚ) := none
  font_name : Option String := none
  font_weight : Option String := none
  color : Option String := none
  opacity : Option ℚ := none
  background_color : Option (Option String) := none
  background_opacity : Option ℚ := none
  background_width : Option (Option ℚ) := none
  background_height : Option (Option ℚ) := none
  padding : Option ℚ := none
deriving DecidableEq, Repr

/-- Pydantic `model_dump()`: every field becomes a present key (possibly
holding `None`). -/
def modelDump (s : PStyle) : StyleDict :=
  { font_size := some s.font_size
    font_name := some s.font_name
    font_weight := some s.font_weight
    color := some s.color
    opacity := some s.opacity
    background_color := some s.background_color
    background_opacity := some s.background_opacity
    background_width := some s.background_width
    background_height := some s.background_height
    padding := some s.padding }

/-- Python `dict.update`: every key present in `o` replaces the entry of
`d`; keys absent from `o` are untouched. -/
def updateStyle (d o : StyleDict) : StyleDict :=
  { font_size := o.font_size <|> d.font_size
    font_name := o.font_name <|> d.font_name
    font_weight := o.font_weight <|> d.font_weight
    color := o.color <|> d.color
    opacity := o.opacity <|> d.opacity
    background_color := o.background_color <|> d.background_color
    background_opacity := o.background_opacity <|> d.background_opacity
    background_width := o.background_width <|> d.background_width
    background_height := o.background_height <|> d.background_height
    padding := o.padding <|> d.padding }

/-- A replacement as it reaches `generate_document`: a bare string, a raw
JSON dict, or a validated `ReplacementValue` object. -/
inductive Replacement where
  | str (s : String)
  | dictRepl (value : String) (content_type : String) (style : Option StyleDict)
  | objRepl (value : String) (content_type : String) (style : Option PStyle)
deriving DecidableEq, Repr

/-- The three `isinstance` branches of `generate_document`: yields
`(replacement_value, replacement_content_type, replacement_style)`.  The
object branch serializes its style with `model_dump()`. -/
def normalizeReplacement : Replacement → String × String × Option StyleDict
  | .str s => (s, "text", none)
  | .dictRepl v ct st => (v, ct, st)
  | .objRepl v ct st => (v, ct, st.map modelDump)

/-- `effective_style = placeholder.style.copy() if placeholder.style else {}`
followed by `effective_style.update(replacement_style)` when the override is
truthy (updating with an empty dict is a no-op, so `none` covers both). -/
def effectiveStyleOf (pstyle : Option StyleDict) (ov : Option StyleDict) : StyleDict :=
  let base := pstyle.getD {}
  match ov with
  | none => base
  | some o => updateStyle base o

/-! ## `hex_to_rgb` -/

def hexDigitVal (c : Char) : Option ℕ :=
  if '0' ≤ c ∧ c ≤ '9' then some (c.toNat - 48)
  else if 'a' ≤ c ∧ c ≤ 'f' then some (c.toNat - 87)
  else if 'A' ≤ c ∧ c ≤ 'F' then some (c.toNat - 55)
  else none

/-- Python `int(s, 16)` on a short slice: raises on an empty slice or a
non-hex character. -/
def parseHexNat (cs : List Char) : Except PyErr ℕ :=
  match cs with
  | [] => .error (.err "ValueError: invalid literal for int")
  | _ =>
    cs.foldl
      (fun acc c =>
        match acc, hexDigitVal c with
        | .ok n, some d => .ok (n * 16 + d)
        | .ok _, none => .error (.err "ValueError: invalid literal for int")
        | .error e, _ => .error e)
      (.ok 0)

/-- `hex_to_rgb`: strip leading `#`s, duplicate each character of a 3-digit
form, then parse three 2-character slices and scale to `0..1`. -/
def hexToRgb (hexColor : String) : Except PyErr (ℚ × ℚ × ℚ) :=
  let cs := hexColor.toList.dropWhile (fun c => c = '#')
  let cs := if cs.length = 3 then cs.foldr (fun c acc => c :: c :: acc) [] else cs
  match parseHexNat (cs.take 2), parseHexNat ((cs.drop 2).take 2),
      parseHexNat ((cs.drop 4).take 2) with
  | .ok r, .ok g, .ok b => .ok ((r : ℚ) / 255, (g : ℚ) / 255, (b : ℚ) / 255)
  | .error e, _, _ => .error e
  | _, .error e, _ => .error e
  | _, _, .error e => .error e

/-! ## Text insertion (`TemplateService._insert_text`) -/

/-- One stored `lines_data` entry as the inserter reads it.  These dicts come
from `LineData.model_dump()`, so `text`/`baseline` are always present and
`y0`/`y1`/`size` are present but possibly `None` (hence the `.get` defaults
in the code are dead and a stored `None` flows through, crashing at the
first arithmetic use — modelled as `PyErr.typeError`). -/
structure LineEntry where
  text : String
  baseline : ℚ
  y0 : Option ℚ := none
  y1 : Option ℚ := none
  size : Option ℚ := none
deriving DecidableEq, Repr

instance : Inhabited LineEntry := ⟨{ text := "", baseline := 0 }⟩

/-- One `page.insert_text` call attempted by the inserter. -/
structure DrawCall where
  idx : ℕ
  text : String
  x : ℚ
  y : ℚ
  fontname : String
  fontsize : ℚ
  color : ℚ × ℚ × ℚ
deriving DecidableEq, Repr

/-- Per-character width table of `measure_text_width`'s heuristic fallback. -/
def charWidthFactor (c : Char) : ℚ :=
  if c = ' ' then 0.35
  else if ("il.,:;|!".toList ++ [Char.ofNat 39, Char.ofNat 96]).contains c then 0.3
  else if "wmMW@#%&".toList.contains c then 0.9
  else 0.6

/-- The heuristic fallback of `measure_text_width` (the PyMuPDF-backed
branches depend on the runtime; any measurer is abstracted as a parameter
elsewhere, this is the in-source fallback). -/
def heuristicWidth (text : String) (fontsize : ℚ) : ℚ :=
  text.toList.foldl (fun acc c => acc + charWidthFactor c * fontsize) 0

def measureFallback (text : String) (_fontname : String) (fontsize : ℚ) : ℚ :=
  heuristicWidth text fontsize

/-- The auto-fit loop: `while fontsize > 4: if measured < maxw: break;
fontsize -= 0.5`. -/
def autofitSize (widthAt : ℚ → ℚ) (maxw : ℚ) (s : ℚ) : ℚ :=
  if h : 4 < s then
    (if widthAt s < maxw then s else autofitSize widthAt maxw (s - 1/2))
  else s
termination_by (⌈(s - 4) * 2⌉).toNat
decreasing_by
  have h1 : (0 : ℚ) < (s - 4) * 2 := by nlinarith
  have h2 : (0 : ℤ) < ⌈(s - 4) * 2⌉ := Int.ceil_pos.mpr h1
  have h3 : (s - 1/2 - 4) * 2 = (s - 4) * 2 - 1 := by ring
  have h4 : ⌈(s - 1/2 - 4) * 2⌉ = ⌈(s - 4) * 2⌉ - 1 := by
    rw [h3]
    exact_mod_cast Int.ceil_sub_int ((s - 4) * 2) 1
  rw [h4]
  omega

/-- Python truthiness of a float-or-`None`: `None` and `0.0` are falsy. -/
def truthyQ (o : Option ℚ) : Option ℚ :=
  o.bind fun v => if v = 0 then none else some v

/-- `style.get('font_size')` with value truthiness applied (the code only
ever tests it with `or` / `not`). -/
def styleSfs (st : Option StyleDict) : Option ℚ :=
  truthyQ (st.getD {}).font_size.join

/-- The bold-variant lookup table. -/
def fontMapping (n : String) : String :=
  if n = "helv" then "hebo"
  else if n = "times-roman" then "tibo"
  else if n = "courier" then "cobo"
  else n

/-- Resolved font name: the style's family, mapped through the bold table
when the weight is `bold`. -/
def styleFontname (st : Option StyleDict) : String :=
  let s := st.getD {}
  let fn0 := s.font_name.getD "helv"
  if s.font_weight.getD "normal" = "bold" then fontMapping fn0 else fn0

def styleColorHex (st : Option StyleDict) : String :=
  (st.getD {}).color.getD "#000000"

def stylePadding (st : Option StyleDict) : ℚ :=
  (st.getD {}).padding.getD 1

/-- `max_font = style_fontsize if style_fontsize and style_fontsize > 14
else 72` (on the truthy style size). -/
def maxFont (sfs : Option ℚ) : ℚ :=
  match sfs with
  | some v => if v > 14 then v else 72
  | none => 72

/-- `fontsize = max(4, min(fontsize, max_font))`; a `None` fontsize (a
stored `None` size reached this point) raises `TypeError` here. -/
def clampFont (sfs : Option ℚ) (fsOpt : Option ℚ) : Except PyErr ℚ :=
  match fsOpt with
  | none => .error .typeError
  | some f => .ok (max 4 (min f (maxFont sfs)))

/-- Everything `_insert_text` fixes before its per-line loop. -/
structure InsCtx where
  measure : String → String → ℚ → ℚ
  rect : Rect
  linesData : List LineEntry
  strict : Bool
  nLines : ℕ
  sfs : Option ℚ
  fontname : String
  color : ℚ × ℚ × ℚ
  padding : ℚ

/-- Baseline-Y and candidate font size (`none` = Python `None`) for line
`i`, mirroring the three position branches of `_insert_text`.  A `None`
`y0`/`y1`/`size` consulted arithmetically raises `TypeError`. -/
def lineGeom (ctx : InsCtx) (i : ℕ) : Except PyErr (ℚ × Option ℚ) :=
  if ctx.strict ∧ i < ctx.linesData.length then
    -- strict branch: reuse the recorded baseline; `lines_data[i]` is a
    -- non-empty dict here, hence always truthy
    let e := ctx.linesData.getD i default
    let fsOpt := match ctx.sfs with
      | some v => some v
      | none => e.size
    .ok (e.baseline, fsOpt)
  else if ctx.linesData ≠ [] then
    match
      (if ctx.linesData.length > 1 then
        match (ctx.linesData.getLastD default).y1, (ctx.linesData.headD default).y0 with
        | some a, some b => .ok ((a - b) / (ctx.linesData.length : ℚ))
        | _, _ => .error .typeError
      else
        match (ctx.linesData.headD default).size with
        | some s => .ok (s * 1.2)
        | none => .error PyErr.typeError : Except PyErr ℚ) with
    | .error e => .error e
    | .ok avg0 =>
      let avg := if avg0 ≤ 0 then 12 else avg0
      let baseline :=
        if i < ctx.linesData.length then (ctx.linesData.getD i default).baseline
        else (ctx.linesData.getLastD default).baseline +
          avg * ((i : ℚ) - (ctx.linesData.length : ℚ) + 1)
      let fsOpt := match ctx.sfs with
        | some v => some v
        | none => (ctx.linesData.headD default).size
      .ok (baseline, fsOpt)
  else
    let num : ℕ := max ctx.nLines 1
    let h := (ctx.rect.y1 - ctx.rect.y0) / (num : ℚ)
    let baseline := ctx.rect.y0 + ((i : ℚ) + 0.8) * h
    let fsOpt := match ctx.sfs with
      | some v => some v
      | none => some (min (h * 0.75) 12)
    .ok (baseline, fsOpt)

/-- One iteration of the `for i, line_text in enumerate(new_lines)` loop:
`none` for a skipped blank line, otherwise the attempted draw call. -/
def insertLine (ctx : InsCtx) (i : ℕ) (raw : String) : Except PyErr (Option DrawCall) :=
  let lt := pyStrip raw
  if lt = "" then .ok none
  else
    match lineGeom ctx i with
    | .error e => .error e
    | .ok (baseline, fsOpt) =>
      match clampFont ctx.sfs fsOpt with
      | .error e => .error e
      | .ok fs0 =>
        let fs := autofitSize (fun s => ctx.measure lt ctx.fontname s)
          (ctx.rect.x1 - ctx.rect.x0 - ctx.padding * 2) fs0
        .ok (some
          { idx := i, text := lt, x := ctx.rect.x0 + ctx.padding, y := baseline,
            fontname := ctx.fontname, fontsize := fs, color := ctx.color })

/-- The whole per-line loop, from line index `i` on. -/
def procLines (ctx : InsCtx) : ℕ → List String → Except PyErr (List DrawCall)
  | _, [] => .ok []
  | i, raw :: rest =>
    match insertLine ctx i raw with
    | .error e => .error e
    | .ok none => procLines ctx (i + 1) rest
    | .ok (some c) =>
      match procLines ctx (i + 1) rest with
      | .error e => .error e
      | .ok cs => .ok (c :: cs)

/-- `TemplateService._insert_text`: returns the list of attempted
`page.insert_text` calls (a per-call draw failure is caught in the code and
does not abort later lines, so recording the attempt is faithful). -/
def insertText (measure : String → String → ℚ → ℚ) (rect : Rect)
    (newText : String) (linesData : Option (List LineEntry)) (strict : Bool)
    (style : Option StyleDict) : Except PyErr (List DrawCall) :=
  let newLines := pySplitOnChar '\n' newText
  let ld := linesData.getD []
  match hexToRgb (styleColorHex style) with
  | .error e => .error e
  | .ok col =>
    procLines
      { measure := measure, rect := rect, linesData := ld, strict := strict,
        nLines := newLines.length, sfs := styleSfs style,
        fontname := styleFontname style, color := col,
        padding := stylePadding style } 0 newLines

/-! ## Generation (`TemplateService.generate_document`) -/

/-- A template placeholder record as generation consumes it. -/
structure Placeholder where
  label : String
  page : ℕ
  x0 : ℚ
  y0 : ℚ
  x1 : ℚ
  y1 : ℚ
  lines_data : Option (List LineEntry) := none
  strict_match : Bool := true
  content_type : String := "text"
  style : Option StyleDict := none

/-- Observable document mutations / external calls of one generation run. -/
inductive Event where
  | openDoc
  | deleteWidget (page : ℕ) (w : Widget)
  | redact (page : ℕ) (r : Rect) (fill : ℚ × ℚ × ℚ)
  | drawRectFallback (page : ℕ) (r : Rect) (fill : ℚ × ℚ × ℚ)
  | customBg (page : ℕ) (r : Rect) (fill : ℚ × ℚ × ℚ) (opacity : ℚ)
  | insertTextCall (page : ℕ) (c : DrawCall)
  | insertImage (page : ℕ) (r : Rect)
  | save
deriving DecidableEq, Repr

inductive GenErr where
  | missingLabels
  | indexError
  | internal (e : PyErr)
deriving DecidableEq, Repr

/-- `request.replacements.get(label)` over the replacements map. -/
def lookupRepl (repl : List (String × Replacement)) (lbl : String) : Option Replacement :=
  (repl.find? (fun kv => decide (kv.1 = lbl))).map Prod.snd

/-- Python truthiness of a replacement (`if not replacement: continue`); the
structured variants always hold keys, so only the bare empty string is
falsy. -/
def replTruthy : Replacement → Bool
  | .str s => decide (s ≠ "")
  | .dictRepl _ _ _ => true
  | .objRepl _ _ _ => true

/-- The clean rectangle: the placeholder rect expanded by 2 points. -/
def expandRect (r : Rect) : Rect := ⟨r.x0 - 2, r.y0 - 2, r.x1 + 2, r.y1 + 2⟩

/-- `effective_style.get('background_color', '#FFFFFF')` followed by
`hex_to_rgb`: an absent key defaults, a stored `None` reaches
`hex_to_rgb(None)` which raises. -/
def bgHex (eff : StyleDict) : Except PyErr String :=
  match eff.background_color with
  | none => .ok "#FFFFFF"
  | some none => .error (.err "AttributeError: NoneType has no lstrip")
  | some (some h) => .ok h

/-- Truthiness of `bg_width` / `bg_height`. -/
def qTruthy (o : Option ℚ) : Bool :=
  match o with
  | some v => decide (v ≠ 0)
  | none => false

/-- Process one placeholder of the `for placeholder in template.placeholders`
loop: returns `(events, raised error, count increment)`. -/
def processPlaceholder (measure : String → String → ℚ → ℚ) (doc : List Page)
    (repl : List (String × Replacement)) (p : Placeholder) :
    List Event × Option GenErr × ℕ :=
  match lookupRepl repl p.label with
  | none => ([], none, 0)
  | some r =>
    if replTruthy r = false then ([], none, 0)
    else
      let (value, ctype, styleOv) := normalizeReplacement r
      if value = "" then ([], none, 0)
      else if h : p.page < doc.length then
        let page := doc[p.page]
        let rect : Rect := ⟨p.x0, p.y0, p.x1, p.y1⟩
        let clean := expandRect rect
        let eff := effectiveStyleOf p.style styleOv
        match bgHex eff with
        | .error e => ([], some (.internal e), 0)
        | .ok hex =>
          match hexToRgb hex with
          | .error e => ([], some (.internal e), 0)
          | .ok bg =>
            let bgOpa := eff.background_opacity.getD 1
            let bgw := eff.background_width.join
            let bgh := eff.background_height.join
            match page.widgets with
            | .error e => ([], some (.internal e), 0)
            | .ok ws =>
              let dels := (ws.filter (fun w => w.rect.intersects clean)).map
                (Event.deleteWidget p.page)
              let erase := if page.redactOk then [Event.redact p.page clean bg]
                else [Event.drawRectFallback p.page clean bg]
              let custom :=
                if qTruthy bgw || qTruthy bgh then
                  let bgRect := if qTruthy bgw && qTruthy bgh then
                      (⟨rect.x0, rect.y0, rect.x0 + bgw.getD 0, rect.y0 + bgh.getD 0⟩ : Rect)
                    else clean
                  [Event.customBg p.page bgRect bg bgOpa]
                else []
              if ctype = "image" then
                (dels ++ erase ++ custom ++ [Event.insertImage p.page rect], none, 1)
              else
                match insertText measure rect value p.lines_data p.strict_match (some eff) with
                | .error e => (dels ++ erase ++ custom, some (.internal e), 0)
                | .ok calls =>
                  (dels ++ erase ++ custom ++ calls.map (Event.insertTextCall p.page),
                    none, 1)
      else ([], some .indexError, 0)

/-- The placeholder loop with accumulated events and count; a raised error
aborts the run (the output document is never saved). -/
def generateGo (measure : String → String → ℚ → ℚ) (doc : List Page)
    (repl : List (String × Replacement)) :
    List Placeholder → List Event → ℕ → List Event × Except GenErr ℕ
  | [], evs, cnt => (evs ++ [Event.save], .ok cnt)
  | p :: rest, evs, cnt =>
    match processPlaceholder measure doc repl p with
    | (pevs, some e, _) => (evs ++ pevs, .error e)
    | (pevs, none, d) => generateGo measure doc repl rest (evs ++ pevs) (cnt + d)

/-- `TemplateService.generate_document` from the missing-label validation
on: the label check happens before the source document is opened, so a
missing label yields an empty event trace. -/
def generate_document (measure : String → String → ℚ → ℚ) (doc : List Page)
    (phs : List Placeholder) (repl : List (String × Replacement)) :
    List Event × Except GenErr ℕ :=
  if phs.any (fun p => (lookupRepl repl p.label).isNone) then
    ([], .error .missingLabels)
  else generateGo measure doc repl phs [Event.openDoc] 0

/-! ## Helper lemmas -/

lemma detectFromWidgets_found (ws : List Widget) (rect : Rect)
    (h : ∃ w ∈ ws, w.rect.intersects rect = true ∧ w.field_value ≠ "") :
    ∃ w ∈ ws, w.rect.intersects rect = true ∧ w.field_value ≠ "" ∧
      detectFromWidgets ws rect = (w.field_value, [widgetLine rect w.field_value]) := by
  induction ws with
  | nil => simp at h
  | cons w rest ih =>
    by_cases hw : w.rect.intersects rect = true ∧ w.field_value ≠ ""
    · exact ⟨w, List.mem_cons_self w rest, hw.1, hw.2, by
        simp [detectFromWidgets, hw.1, hw.2]⟩
    · obtain ⟨w', hmem, hint, hval⟩ := h
      have hrest : w' ∈ rest := by
        rcases List.mem_cons.mp hmem with h1 | h2
        · exact absurd ⟨h1 ▸ hint, h1 ▸ hval⟩ hw
        · exact h2
      obtain ⟨w'', hmem'', h1, h2, heq⟩ := ih ⟨w', hrest, hint, hval⟩
      refine ⟨w'', List.mem_cons_of_mem _ hmem'', h1, h2, ?_⟩
      have hcond : ¬ (w.rect.intersects rect = true ∧ w.field_value ≠ "") := hw
      simp only [detectFromWidgets]
      rw [if_neg hcond]
      exact heq

/-! ## Claim theorems -/

/-- C1.  If at least one form-field widget intersecting the rectangle
carries a non-empty value, `detect_text` returns (the first) such widget's
value with source `Form Field` and a single synthesized line with
`baseline = rect.y1 - 2` and `size` = the rectangle height; the result does
not depend on the page's text layout, words or OCR output (those components
are universally quantified), so later strategies are never consulted. -/
theorem c1_formfield_priority (av : Bool) (ws : List Widget)
    (td : Rect → Except PyErr (List Block)) (wop : Rect → Except PyErr (List Word))
    (ocr : Rect → Except PyErr String) (rok : Bool) (rect : Rect)
    (h : ∃ w ∈ ws, w.rect.intersects rect = true ∧ w.field_value ≠ "") :
    ∃ w ∈ ws, w.rect.intersects rect = true ∧ w.field_value ≠ "" ∧
      detect_text av ⟨.ok ws, td, wop, ocr, rok⟩ rect =
        .ok (w.field_value, "Form Field", [widgetLine rect w.field_value]) := by
  obtain ⟨w, hmem, hint, hval, heq⟩ := detectFromWidgets_found ws rect h
  refine ⟨w, hmem, hint, hval, ?_⟩
  simp only [detect_text]
  rw [heq]
  split
  · rfl
  · next hq => exact absurd hval hq

/-- Witness for C1 at a concrete page: one valued widget overlapping the
rectangle, with empty text layout underneath. -/
theorem c1_formfield_priority_witness :
    ∃ w ∈ [(⟨⟨0, 0, 10, 10⟩, "val"⟩ : Widget)],
      w.rect.intersects ⟨0, 0, 10, 10⟩ = true ∧ w.field_value ≠ "" ∧
      detect_text false ⟨.ok [(⟨⟨0, 0, 10, 10⟩, "val"⟩ : Widget)],
          fun _ => .ok [], fun _ => .ok [], fun _ => .ok "", true⟩ ⟨0, 0, 10, 10⟩ =
        .ok (w.field_value, "Form Field", [widgetLine ⟨0, 0, 10, 10⟩ w.field_value]) :=
  c1_formfield_priority false [(⟨⟨0, 0, 10, 10⟩, "val"⟩ : Widget)]
    (fun _ => .ok []) (fun _ => .ok []) (fun _ => .ok "") true ⟨0, 0, 10, 10⟩
    ⟨⟨⟨0, 0, 10, 10⟩, "val"⟩, List.mem_cons_self _ _,
      by norm_num [Rect.intersects], by decide⟩

/-- C4, counterexample.  The claim says an exception inside any strategy is
caught; but an exception raised while enumerating widgets (strategy 1)
propagates out of `detect_text` untouched. -/
theorem c4_counterexample :
    detect_text false
        ⟨.error (.err "boom"), fun _ => .ok [], fun _ => .ok [], fun _ => .ok "", true⟩
        ⟨0, 0, 10, 10⟩ = .error (.err "boom") ∧
      (detect_text false
        ⟨.error (.err "boom"), fun _ => .ok [], fun _ => .ok [], fun _ => .ok "", true⟩
        ⟨0, 0, 10, 10⟩).isOk = false :=
  ⟨rfl, rfl⟩

/-- C4, amended.  Only the OCR strategy catches its internal exception: when
the first three strategies run without raising and find nothing, a raising
OCR engine is swallowed and `detect_text` still returns the Empty result
(whereas, per the counterexample, exceptions in the other strategies
propagate). -/
theorem c4_ocr_exception_swallowed (pg : Page) (rect : Rect) (ws : List Widget)
    (bs : List Block) (vs : List Word) (e : PyErr)
    (hw : pg.widgets = .ok ws) (ht : pg.textDict rect = .ok bs)
    (hv : pg.words rect = .ok vs)
    (h1 : detectFromWidgets ws rect = ("", []))
    (h2 : detectFromTextDict bs = ("", []))
    (h3 : detectFromWordClusters vs = ("", []))
    (ho : pg.ocr rect = .error e) :
    detect_text true pg rect = .ok ("", "Empty", []) := by
  simp only [detect_text, hw, h1]
  simp only [ht, h2]
  simp only [hv, h3]
  simp [detectFromOcr, ho]

/-- Witness for C4's amended theorem: a page with no widgets, no text
layout, no words, and an OCR engine that raises. -/
theorem c4_ocr_exception_swallowed_witness :
    detect_text true
        ⟨.ok [], fun _ => .ok [], fun _ => .ok [], fun _ => .error (.err "ocr fail"), true⟩
        ⟨0, 0, 10, 10⟩ = .ok ("", "Empty", []) :=
  c4_ocr_exception_swallowed
    ⟨.ok [], fun _ => .ok [], fun _ => .ok [], fun _ => .error (.err "ocr fail"), true⟩
    ⟨0, 0, 10, 10⟩ [] [] [] (.err "ocr fail") rfl rfl rfl rfl rfl rfl rfl

/-- C5.  If some placeholder label has no entry at all in the replacements
map, `generate_document` fails with the validation error and its event
trace is empty: the source document is never opened, no region is erased,
nothing is inserted and no output is saved. -/
theorem c5_missing_label_validation (measure : String → String → ℚ → ℚ)
    (doc : List Page) (phs : List Placeholder) (repl : List (String × Replacement))
    (h : ∃ p ∈ phs, lookupRepl repl p.label = none) :
    generate_document measure doc phs repl = ([], .error .missingLabels) := by
  obtain ⟨p, hp, hnone⟩ := h
  unfold generate_document
  rw [if_pos]
  exact List.any_eq_true.mpr ⟨p, hp, by simp [hnone]⟩

/-- Witness for C5: a one-placeholder template with an empty replacements
map. -/
theorem c5_missing_label_validation_witness :
    generate_document measureFallback []
        [{ label := "a", page := 0, x0 := 0, y0 := 0, x1 := 10, y1 := 10 }] [] =
      ([], .error .missingLabels) :=
  c5_missing_label_validation measureFallback []
    [{ label := "a", page := 0, x0 := 0, y0 := 0, x1 := 10, y1 := 10 }] []
    ⟨_, List.mem_cons_self _ _, rfl⟩

/-! ## Auto-fit loop lemmas -/

lemma autofit_stop (w : ℚ → ℚ) (m s : ℚ) (h : ¬ 4 < s) :
    autofitSize w m s = s := by
  rw [autofitSize]
  simp [h]

lemma autofit_fits (w : ℚ → ℚ) (m s : ℚ) (h4 : 4 < s) (hf : w s < m) :
    autofitSize w m s = s := by
  rw [autofitSize]
  simp [h4, hf]

lemma autofit_step (w : ℚ → ℚ) (m s : ℚ) (h4 : 4 < s) (hf : ¬ w s < m) :
    autofitSize w m s = autofitSize w m (s - 1/2) := by
  conv_lhs => rw [autofitSize]
  simp [h4, hf]

lemma autofit_gt_half (w : ℚ → ℚ) (m : ℚ) :
    ∀ s : ℚ, 7/2 < s → 7/2 < autofitSize w m s := by
  intro s
  induction s using autofitSize.induct w m with
  | case1 s h4 hf =>
    intro _
    rw [autofit_fits w m s h4 hf]
    linarith
  | case2 s h4 hf ih =>
    intro _
    rw [autofit_step w m s h4 hf]
    exact ih (by linarith)
  | case3 s h4 =>
    intro h
    rw [autofit_stop w m s h4]
    exact h

lemma autofit_halfstep_ge_4 (w : ℚ → ℚ) (m : ℚ) :
    ∀ s : ℚ, (∃ n : ℕ, s = 4 + (n : ℚ) / 2) → 4 ≤ autofitSize w m s := by
  intro s
  induction s using autofitSize.induct w m with
  | case1 s h4 hf =>
    intro _
    rw [autofit_fits w m s h4 hf]
    linarith
  | case2 s h4 hf ih =>
    rintro ⟨n, hn⟩
    rw [autofit_step w m s h4 hf]
    refine ih ⟨n - 1, ?_⟩
    have hn1 : 1 ≤ n := by
      by_contra hc
      have : n = 0 := by omega
      rw [this] at hn
      norm_num at hn
      rw [hn] at h4
      exact lt_irrefl _ h4
    have : ((n - 1 : ℕ) : ℚ) = (n : ℚ) - 1 := by
      push_cast [hn1]
      ring
    rw [this, hn]
    ring
  | case3 s h4 =>
    rintro ⟨n, hn⟩
    rw [autofit_stop w m s h4, hn]
    have hn0 : (0 : ℚ) ≤ (n : ℚ) / 2 := by positivity
    linarith

lemma autofit_of_fits (w : ℚ → ℚ) (m s : ℚ) (hf : w s < m) :
    autofitSize w m s = s := by
  by_cases h4 : 4 < s
  · exact autofit_fits w m s h4 hf
  · exact autofit_stop w m s h4

/-- C7, amended.  The auto-fit loop (i) always leaves the size strictly
above 3.5 when it starts above 3.5 (in `_insert_text` it always starts at
least at 4, but a start in `(4, 4.5)` can end in `(3.5, 4)`), (ii) never
goes below 4 when the start is 4 plus a whole number of 0.5-steps — in
particular for integer or half-integer candidate sizes, and (iii) keeps the
initial candidate size unchanged whenever the measured width already fits
strictly within the budget. -/
theorem c7_autofit_bounds (w : ℚ → ℚ) (m s : ℚ) :
    (7/2 < s → 7/2 < autofitSize w m s) ∧
    ((∃ n : ℕ, s = 4 + (n : ℚ) / 2) → 4 ≤ autofitSize w m s) ∧
    (w s < m → autofitSize w m s = s) :=
  ⟨autofit_gt_half w m s, autofit_halfstep_ge_4 w m s, autofit_of_fits w m s⟩

/-- Witness for C7's amended theorem, at the heuristic measurer, a width
budget of 8 and a start size of 5 (one 0.5-step above 4.5): the bounds hold
and the already-fitting line is kept at its size. -/
theorem c7_autofit_bounds_witness :
    (7/2 < (5 : ℚ) → 7/2 < autofitSize (fun s => measureFallback "hi" "helv" s) 8 5) ∧
    ((∃ n : ℕ, (5 : ℚ) = 4 + (n : ℚ) / 2) →
      4 ≤ autofitSize (fun s => measureFallback "hi" "helv" s) 8 5) ∧
    (measureFallback "hi" "helv" 5 < 8 →
      autofitSize (fun s => measureFallback "hi" "helv" s) 8 5 = 5) :=
  c7_autofit_bounds (fun s => measureFallback "hi" "helv" s) 8 5

lemma hexToRgb_black : hexToRgb "#000000" = .ok (0, 0, 0) := by
  have h : parseHexNat ['0', '0'] = .ok 0 := rfl
  simp [hexToRgb, h]

lemma hexToRgb_white : hexToRgb "#FFFFFF" = .ok (1, 1, 1) := by
  have h : parseHexNat ['F', 'F'] = .ok 255 := rfl
  simp [hexToRgb, h]

lemma heuristicWidth_wwww (s : ℚ) : heuristicWidth "WWWW" s = 18/5 * s := by
  have h : "WWWW".toList = ['W', 'W', 'W', 'W'] := rfl
  simp [heuristicWidth, h, charWidthFactor]
  ring

/-- C7, counterexample.  With an explicit style size of 4.2 points and a
line too wide for the box, the auto-fit loop of `_insert_text` draws the
line at 3.7 points, strictly below the claimed floor of 4. -/
theorem c7_counterexample :
    insertText measureFallback ⟨0, 0, 10, 20⟩ "WWWW" none false
        (some { font_size := some (some (21/5)) }) =
      .ok [⟨0, "WWWW", 1, 16, "helv", 37/10, (0, 0, 0)⟩] ∧ (37/10 : ℚ) < 4 := by
  constructor
  · have hst : styleSfs (some ({ font_size := some (some (21/5)) } : StyleDict)) =
        some (21/5) := by
      simp [styleSfs, truthyQ]
    have hcx : styleColorHex (some ({ font_size := some (some (21/5)) } : StyleDict)) =
        "#000000" := rfl
    have hsplit : pySplitOnChar '\n' "WWWW" = ["WWWW"] := rfl
    have hstrip : pyStrip "WWWW" = "WWWW" := rfl
    have hfits : ¬ measureFallback "WWWW" "helv" (21/5) < (8 : ℚ) := by
      rw [show measureFallback "WWWW" "helv" (21/5) = heuristicWidth "WWWW" (21/5) from rfl]
      rw [heuristicWidth_wwww]
      norm_num
    have ha8 : autofitSize (fun s => measureFallback "WWWW" "helv" s) 8 (21/5) = 37/10 := by
      rw [autofit_step _ _ _ (by norm_num) hfits]
      rw [autofit_stop _ _ _ (by norm_num)]
      norm_num
    simp only [insertText, hsplit, hcx, hexToRgb_black]
    simp only [procLines, insertLine, hstrip, lineGeom]
    norm_num [hst, clampFont, maxFont, stylePadding, styleFontname, fontMapping]
    rw [show (if "normal" = "bold" then "hebo" else "helv") = "helv" from rfl]
    rw [if_neg (show ¬ ("WWWW" = "") from by decide)]
    rw [ha8]
  · norm_num

/-! ## Cluster invariants -/

lemma addWordToClusters_inv (w : Word) :
    ∀ cs : List (ℚ × List Word),
      (∀ km ∈ cs, ∀ x ∈ km.2, |wordCenter x - km.1| < 5) →
      ∀ km ∈ addWordToClusters w cs, ∀ x ∈ km.2, |wordCenter x - km.1| < 5 := by
  intro cs
  induction cs with
  | nil =>
    intro _ km hkm x hx
    simp only [addWordToClusters, List.mem_singleton] at hkm
    subst hkm
    simp only [List.mem_singleton] at hx
    subst hx
    simp
  | cons hd rest ih =>
    obtain ⟨k, ms⟩ := hd
    intro hinv km hkm x hx
    simp only [addWordToClusters] at hkm
    by_cases hc : |k - wordCenter w| < 5
    · rw [if_pos hc] at hkm
      rcases List.mem_cons.mp hkm with h1 | h2
      · subst h1
        rcases List.mem_append.mp hx with hx1 | hx2
        · exact hinv (k, ms) (List.mem_cons_self _ _) x hx1
        · simp only [List.mem_singleton] at hx2
          subst hx2
          rw [abs_sub_comm]
          exact hc
      · exact hinv km (List.mem_cons_of_mem _ h2) x hx
    · rw [if_neg hc] at hkm
      rcases List.mem_cons.mp hkm with h1 | h2
      · subst h1
        exact hinv (k, ms) (List.mem_cons_self _ _) x hx
      · exact ih (fun km' hkm' => hinv km' (List.mem_cons_of_mem _ hkm')) km h2 x hx

lemma clusterWords_inv (ws : List Word) :
    ∀ km ∈ clusterWords ws, ∀ x ∈ km.2, |wordCenter x - km.1| < 5 := by
  have main : ∀ (l : List Word) (cs : List (ℚ × List Word)),
      (∀ km ∈ cs, ∀ x ∈ km.2, |wordCenter x - km.1| < 5) →
      ∀ km ∈ l.foldl (fun cs w => addWordToClusters w cs) cs,
        ∀ x ∈ km.2, |wordCenter x - km.1| < 5 := by
    intro l
    induction l with
    | nil => intro cs h; simpa using h
    | cons w rest ih =>
      intro cs h
      simp only [List.foldl_cons]
      exact ih _ (addWordToClusters_inv w cs h)
  exact main ws [] (by simp)

/-- C9, amended.  In the greedy clustering, every member of a cluster has
its vertical center within (strictly) 5 points of the cluster's key — the
first-seen center — and consequently any two words of one cluster have
centers less than 10 points apart.  (The claimed pairwise-5 law fails in
both directions, see the counterexample: closeness is measured against the
key only, not between members.) -/
theorem c9_cluster_tolerance (ws : List Word) (k : ℚ) (ms : List Word)
    (hmem : (k, ms) ∈ clusterWords ws) :
    (∀ w ∈ ms, |wordCenter w - k| < 5) ∧
      ∀ w1 ∈ ms, ∀ w2 ∈ ms, |wordCenter w1 - wordCenter w2| < 10 := by
  have h1 := clusterWords_inv ws (k, ms) hmem
  refine ⟨h1, ?_⟩
  intro w1 hw1 w2 hw2
  have a1 := h1 w1 hw1
  have a2 := h1 w2 hw2
  calc |wordCenter w1 - wordCenter w2|
      ≤ |wordCenter w1 - k| + |k - wordCenter w2| := abs_sub_le _ _ _
    _ = |wordCenter w1 - k| + |wordCenter w2 - k| := by rw [abs_sub_comm k]
    _ < 10 := by linarith

/-- Witness for C9's amended theorem: three words landing in one cluster
keyed 0. -/
theorem c9_cluster_tolerance_witness :
    (∀ w ∈ [(⟨0, -1, 10, 1, "d"⟩ : Word), ⟨0, -5, 10, -4, "e"⟩, ⟨0, 4, 10, 5, "f"⟩],
        |wordCenter w - 0| < 5) ∧
      ∀ w1 ∈ [(⟨0, -1, 10, 1, "d"⟩ : Word), ⟨0, -5, 10, -4, "e"⟩, ⟨0, 4, 10, 5, "f"⟩],
        ∀ w2 ∈ [(⟨0, -1, 10, 1, "d"⟩ : Word), ⟨0, -5, 10, -4, "e"⟩, ⟨0, 4, 10, 5, "f"⟩],
          |wordCenter w1 - wordCenter w2| < 10 :=
  c9_cluster_tolerance
    [⟨0, -1, 10, 1, "d"⟩, ⟨0, -5, 10, -4, "e"⟩, ⟨0, 4, 10, 5, "f"⟩] 0
    [⟨0, -1, 10, 1, "d"⟩, ⟨0, -5, 10, -4, "e"⟩, ⟨0, 4, 10, 5, "f"⟩]
    (by norm_num [clusterWords, addWordToClusters, wordCenter, abs_of_nonneg,
      abs_of_nonpos])

/-- C9, counterexample.  Words `b` (center 4) and `c` (center 7) differ by
3 < 5 yet end up in different clusters (the first pass compares against the
key 0, not against `b`); words `e` (center −4.5) and `f` (center 4.5)
differ by 9 ≥ 5 yet share the cluster keyed 0. -/
theorem c9_counterexample :
    (|wordCenter ⟨0, 3, 10, 5, "b"⟩ - wordCenter ⟨0, 6, 10, 8, "c"⟩| < 5 ∧
      clusterWords [⟨0, -1, 10, 1, "a"⟩, ⟨0, 3, 10, 5, "b"⟩, ⟨0, 6, 10, 8, "c"⟩] =
        [(0, [⟨0, -1, 10, 1, "a"⟩, ⟨0, 3, 10, 5, "b"⟩]), (7, [⟨0, 6, 10, 8, "c"⟩])]) ∧
    (5 ≤ |wordCenter ⟨0, -5, 10, -4, "e"⟩ - wordCenter ⟨0, 4, 10, 5, "f"⟩| ∧
      clusterWords [⟨0, -1, 10, 1, "d"⟩, ⟨0, -5, 10, -4, "e"⟩, ⟨0, 4, 10, 5, "f"⟩] =
        [(0, [⟨0, -1, 10, 1, "d"⟩, ⟨0, -5, 10, -4, "e"⟩, ⟨0, 4, 10, 5, "f"⟩])]) := by
  refine ⟨⟨?_, ?_⟩, ?_, ?_⟩
  · norm_num [wordCenter, abs_of_nonneg, abs_of_nonpos]
  · norm_num [clusterWords, addWordToClusters, wordCenter, abs_of_nonneg, abs_of_nonpos]
  · norm_num [wordCenter, abs_of_nonneg, abs_of_nonpos]
  · norm_num [clusterWords, addWordToClusters, wordCenter, abs_of_nonneg, abs_of_nonpos]

/-- C6, amended.  The merge is Python `dict.update` on the style dicts: for
an override that arrives as a raw JSON dict, every key it contains replaces
the placeholder default's entry and every key it omits inherits the
default's entry (field-wise characterization below).  But an override that
arrives as a structured `ReplacementValue` is serialized with
`model_dump()`, which materializes every schema field, so the merge then
replaces the whole placeholder default style with the serialized override —
a one-field override does reset all other fields to schema defaults. -/
theorem c6_style_merge :
    ∀ (base o : StyleDict) (v ct : String) (ps : PStyle),
      effectiveStyleOf (some base) (normalizeReplacement (.dictRepl v ct (some o))).2.2 =
        updateStyle base o ∧
      effectiveStyleOf (some base) (normalizeReplacement (.objRepl v ct (some ps))).2.2 =
        modelDump ps ∧
      (o.font_size = none → (updateStyle base o).font_size = base.font_size) ∧
      (∀ x, o.font_size = some x → (updateStyle base o).font_size = some x) ∧
      (o.font_name = none → (updateStyle base o).font_name = base.font_name) ∧
      (∀ x, o.font_name = some x → (updateStyle base o).font_name = some x) ∧
      (o.font_weight = none → (updateStyle base o).font_weight = base.font_weight) ∧
      (∀ x, o.font_weight = some x → (updateStyle base o).font_weight = some x) ∧
      (o.color = none → (updateStyle base o).color = base.color) ∧
      (∀ x, o.color = some x → (updateStyle base o).color = some x) ∧
      (o.opacity = none → (updateStyle base o).opacity = base.opacity) ∧
      (∀ x, o.opacity = some x → (updateStyle base o).opacity = some x) ∧
      (o.background_color = none → (updateStyle base o).background_color = base.background_color) ∧
      (∀ x, o.background_color = some x → (updateStyle base o).background_color = some x) ∧
      (o.background_opacity = none → (updateStyle base o).background_opacity = base.background_opacity) ∧
      (∀ x, o.background_opacity = some x → (updateStyle base o).background_opacity = some x) ∧
      (o.background_width = none → (updateStyle base o).background_width = base.background_width) ∧
      (∀ x, o.background_width = some x → (updateStyle base o).background_width = some x) ∧
      (o.background_height = none → (updateStyle base o).background_height = base.background_height) ∧
      (∀ x, o.background_height = some x → (updateStyle base o).background_height = some x) ∧
      (o.padding = none → (updateStyle base o).padding = base.padding) ∧
      (∀ x, o.padding = some x → (updateStyle base o).padding = some x) := by
  intro base o v ct ps
  refine ⟨rfl, rfl, ?_, ?_, ?_, ?_, ?_, ?_, ?_, ?_, ?_, ?_, ?_, ?_, ?_, ?_, ?_, ?_, ?_, ?_, ?_, ?_⟩
  all_goals first
    | (intro h; simp [updateStyle, h])
    | (intro x h; simp [updateStyle, h])

/-- Witness for C6's amended theorem: a placeholder default with red text, a
raw-dict override holding only a font size (color inherited), and the
object path collapsing to the serialized override. -/
theorem c6_style_merge_witness :
    effectiveStyleOf (some (modelDump { color := "#FF0000" }))
        (normalizeReplacement (.dictRepl "x" "text"
          (some { font_size := some (some 20) }))).2.2 =
      updateStyle (modelDump { color := "#FF0000" }) { font_size := some (some 20) } ∧
    effectiveStyleOf (some (modelDump { color := "#FF0000" }))
        (normalizeReplacement (.objRepl "x" "text" (some { font_size := some 20 }))).2.2 =
      modelDump { font_size := some 20 } ∧
    (updateStyle (modelDump { color := "#FF0000" })
        { font_size := some (some 20) }).color = some "#FF0000" := by
  obtain ⟨h1, h2, h3, h4, h5, h6, h7, h8, h9, hrest⟩ :=
    c6_style_merge (modelDump { color := "#FF0000" }) { font_size := some (some 20) }
      "x" "text" { font_size := some 20 }
  exact ⟨h1, h2, h9 rfl⟩

/-- C6, counterexample.  The placeholder default style has red text; the
replacement override (a structured `ReplacementValue`) sets only
`font_size = 20`.  The claim says the effective color stays red, but the
serialized override resets it to the schema default black. -/
theorem c6_counterexample :
    (effectiveStyleOf (some (modelDump { color := "#FF0000" }))
        (normalizeReplacement (.objRepl "x" "text" (some { font_size := some 20 }))).2.2).color =
      some "#000000" ∧
    (modelDump ({ color := "#FF0000" } : PStyle)).color = some "#FF0000" ∧
    some "#000000" ≠ some "#FF0000" := by
  refine ⟨rfl, rfl, ?_⟩
  decide

/-! ## Per-line loop lemmas -/

lemma insertLine_idx (ctx : InsCtx) (i : ℕ) (raw : String) (c : DrawCall)
    (h : insertLine ctx i raw = .ok (some c)) : c.idx = i := by
  unfold insertLine at h
  by_cases hb : pyStrip raw = ""
  · rw [if_pos hb] at h
    simp at h
  · rw [if_neg hb] at h
    cases hg : lineGeom ctx i with
    | error e =>
      rw [hg] at h
      simp at h
    | ok p =>
      obtain ⟨baseline, fsOpt⟩ := p
      rw [hg] at h
      dsimp only at h
      cases hc : clampFont ctx.sfs fsOpt with
      | error e =>
        rw [hc] at h
        simp at h
      | ok fs0 =>
        rw [hc] at h
        simp only [Except.ok.injEq, Option.some.injEq] at h
        rw [← h]

lemma procLines_idx_lb (ctx : InsCtx) :
    ∀ (ls : List String) (j : ℕ) (calls : List DrawCall),
      procLines ctx j ls = .ok calls → ∀ c ∈ calls, j ≤ c.idx := by
  intro ls
  induction ls with
  | nil =>
    intro j calls h c hc
    simp only [procLines, Except.ok.injEq] at h
    subst h
    simp at hc
  | cons raw rest ih =>
    intro j calls h c hc
    simp only [procLines] at h
    cases heq : insertLine ctx j raw with
    | error e => rw [heq] at h; simp at h
    | ok oc =>
      rw [heq] at h
      cases oc with
      | none =>
        have := ih (j + 1) calls h c hc
        omega
      | some c0 =>
        cases heq2 : procLines ctx (j + 1) rest with
        | error e => rw [heq2] at h; simp at h
        | ok cs =>
          rw [heq2] at h
          simp only [Except.ok.injEq] at h
          subst h
          rcases List.mem_cons.mp hc with h1 | h2
          · subst h1
            rw [insertLine_idx ctx j raw c heq]
          · have := ih (j + 1) cs heq2 c h2
            omega

lemma procLines_get (ctx : InsCtx) :
    ∀ (ls : List String) (j k : ℕ) (calls : List DrawCall) (c : DrawCall),
      procLines ctx j ls = .ok calls → k < ls.length →
      insertLine ctx (j + k) (ls.getD k "") = .ok (some c) →
      c ∈ calls ∧ ∀ c' ∈ calls, c'.idx = j + k → c' = c := by
  intro ls
  induction ls with
  | nil =>
    intro j k calls c _ hk
    simp at hk
  | cons raw rest ih =>
    intro j k calls c h hk hins
    simp only [procLines] at h
    cases heq : insertLine ctx j raw with
    | error e => rw [heq] at h; simp at h
    | ok oc =>
      rw [heq] at h
      cases oc with
      | none =>
        cases k with
        | zero =>
          simp only [Nat.add_zero, List.getD_cons_zero] at hins
          rw [hins] at heq
          simp at heq
        | succ k0 =>
          have hres := ih (j + 1) k0 calls c h (by simpa using hk)
            (by
              have : j + 1 + k0 = j + (k0 + 1) := by omega
              rw [this]
              simpa using hins)
          refine ⟨hres.1, fun c' hc' hidx => hres.2 c' hc' ?_⟩
          omega
      | some c0 =>
        cases heq2 : procLines ctx (j + 1) rest with
        | error e => rw [heq2] at h; simp at h
        | ok cs =>
          rw [heq2] at h
          simp only [Except.ok.injEq] at h
          subst h
          cases k with
          | zero =>
            simp only [Nat.add_zero, List.getD_cons_zero] at hins
            rw [hins] at heq
            simp only [Except.ok.injEq, Option.some.injEq] at heq
            subst heq
            refine ⟨List.mem_cons_self _ _, ?_⟩
            intro c' hc' hidx
            rcases List.mem_cons.mp hc' with h1 | h2
            · exact h1
            · have := procLines_idx_lb ctx rest (j + 1) cs heq2 c' h2
              omega
          | succ k0 =>
            have hres := ih (j + 1) k0 cs c heq2 (by simpa using hk)
              (by
                have : j + 1 + k0 = j + (k0 + 1) := by omega
                rw [this]
                simpa using hins)
            refine ⟨List.mem_cons_of_mem _ hres.1, ?_⟩
            intro c' hc' hidx
            rcases List.mem_cons.mp hc' with h1 | h2
            · subst h1
              have := insertLine_idx ctx j raw c' heq
              omega
            · exact hres.2 c' h2 (by omega)

/-- C2, amended.  In strict mode, for every line index within the prior
line count whose text is non-blank, the (unique) draw call for that index
sits exactly at the prior entry's recorded baseline, whatever the new text
is; its font size is the candidate — the style's explicit (truthy) size if
set, else the entry's recorded size — CLAMPED to at least 4 and at most
`maxFont` (72, or the style size when that exceeds 14), and then width
auto-fitted.  (The unclamped candidate of the original claim is wrong, see
the counterexample; `hsz` also excludes a recorded `None` size with no
style size, which would raise `TypeError` instead of falling back to 10.) -/
theorem c2_strict_baseline (measure : String → String → ℚ → ℚ) (rect : Rect)
    (txt : String) (ld : List LineEntry) (style : Option StyleDict)
    (calls : List DrawCall) (i : ℕ) (e : LineEntry) (raw : String) (sz : ℚ)
    (hok : insertText measure rect txt (some ld) true style = .ok calls)
    (hi : i < ld.length)
    (he : ld.getD i default = e)
    (hraw : (pySplitOnChar '\n' txt).getD i "" = raw)
    (hblank : pyStrip raw ≠ "")
    (hsz : (match styleSfs style with
      | some v => some v
      | none => e.size) = some sz) :
    ∃ c ∈ calls, c.idx = i ∧ c.y = e.baseline ∧
      c.fontsize = autofitSize (fun s => measure (pyStrip raw) (styleFontname style) s)
        (rect.x1 - rect.x0 - stylePadding style * 2)
        (max 4 (min sz (maxFont (styleSfs style)))) ∧
      ∀ c' ∈ calls, c'.idx = i → c' = c := by
  have hlen : i < (pySplitOnChar '\n' txt).length := by
    by_contra hc
    have hd : (pySplitOnChar '\n' txt).getD i "" = "" :=
      List.getD_eq_default _ _ (by omega)
    rw [hd] at hraw
    exact hblank (by rw [← hraw]; decide)
  unfold insertText at hok
  cases hcol : hexToRgb (styleColorHex style) with
  | error er =>
    rw [hcol] at hok
    simp at hok
  | ok col =>
    rw [hcol] at hok
    dsimp only at hok
    simp only [Option.getD_some] at hok
    set ctx : InsCtx :=
      { measure := measure, rect := rect, linesData := ld, strict := true,
        nLines := (pySplitOnChar '\n' txt).length, sfs := styleSfs style,
        fontname := styleFontname style, color := col,
        padding := stylePadding style } with hctx
    have hgeom : lineGeom ctx i = .ok (e.baseline, some sz) := by
      unfold lineGeom
      rw [if_pos ⟨rfl, hi⟩]
      simp only [hctx, he]
      rw [← hsz]
    have hins : insertLine ctx (0 + i) raw =
        .ok (some ⟨i, pyStrip raw, rect.x0 + stylePadding style, e.baseline,
          styleFontname style,
          autofitSize (fun s => measure (pyStrip raw) (styleFontname style) s)
            (rect.x1 - rect.x0 - stylePadding style * 2)
            (max 4 (min sz (maxFont (styleSfs style)))), col⟩) := by
      unfold insertLine
      rw [Nat.zero_add]
      rw [if_neg hblank, hgeom]
      dsimp only
      rfl
    have hres := procLines_get ctx (pySplitOnChar '\n' txt) 0 i calls _ hok hlen
      (by rw [hraw]; exact hins)
    refine ⟨_, hres.1, rfl, rfl, rfl, ?_⟩
    intro c' hc' hidx
    exact hres.2 c' hc' (by omega)

/-- Witness for C2's amended theorem: strict insertion of "hi" over one
prior entry with baseline 15 and recorded size 12; the line fits, so it is
drawn at baseline 15 with the clamped candidate size 12. -/
theorem c2_strict_baseline_witness :
    ∃ c ∈ [(⟨0, "hi", 1, 15, "helv", 12, (0, 0, 0)⟩ : DrawCall)], c.idx = 0 ∧
      c.y = ({ text := "x", baseline := 15, size := some 12 } : LineEntry).baseline ∧
      c.fontsize = autofitSize (fun s => measureFallback (pyStrip "hi") (styleFontname none) s)
        ((100 : ℚ) - 0 - stylePadding none * 2)
        (max 4 (min 12 (maxFont (styleSfs none)))) ∧
      ∀ c' ∈ [(⟨0, "hi", 1, 15, "helv", 12, (0, 0, 0)⟩ : DrawCall)], c'.idx = 0 → c' = c := by
  refine c2_strict_baseline measureFallback ⟨0, 0, 100, 20⟩ "hi"
    [{ text := "x", baseline := 15, size := some 12 }] none
    [⟨0, "hi", 1, 15, "helv", 12, (0, 0, 0)⟩] 0
    { text := "x", baseline := 15, size := some 12 } "hi" 12
    ?_ (by norm_num) rfl rfl (by decide) rfl
  have hsplit : pySplitOnChar '\n' "hi" = ["hi"] := rfl
  have hstrip : pyStrip "hi" = "hi" := rfl
  have hcx : styleColorHex none = "#000000" := rfl
  have hfits : measureFallback "hi" "helv" 12 < (98 : ℚ) := by
    have h2 : "hi".toList = ['h', 'i'] := rfl
    have hch : charWidthFactor 'h' = 0.6 := rfl
    have hci : charWidthFactor 'i' = 0.3 := rfl
    norm_num [measureFallback, heuristicWidth, h2, hch, hci]
  have ha : autofitSize (fun s => measureFallback "hi" "helv" s) 98 12 = 12 :=
    autofit_of_fits _ _ _ hfits
  simp only [insertText, hsplit, hcx, hexToRgb_black]
  simp only [procLines, insertLine, hstrip, lineGeom]
  norm_num [styleSfs, truthyQ, clampFont, maxFont, stylePadding, styleFontname,
    fontMapping]
  rw [show (if "normal" = "bold" then "hebo" else "helv") = "helv" from rfl]
  rw [if_neg (show ¬ ("hi" = "") from by decide)]
  rw [ha]

/-- C2, counterexample.  Strict mode, style without an explicit size, prior
entry with baseline 10 and recorded size 2, new line "a" (fits easily, so
auto-fit is a no-op).  The claim says the pre-auto-fit font size is the
recorded 2; the code clamps it to `max(4, min(2, 72)) = 4` and draws at
size 4. -/
theorem c2_counterexample :
    insertText measureFallback ⟨0, 0, 100, 20⟩ "a"
        (some [{ text := "x", baseline := 10, size := some 2 }]) true none =
      .ok [⟨0, "a", 1, 10, "helv", 4, (0, 0, 0)⟩] ∧ (4 : ℚ) ≠ 2 := by
  constructor
  · have hsplit : pySplitOnChar '\n' "a" = ["a"] := rfl
    have hstrip : pyStrip "a" = "a" := rfl
    have hcx : styleColorHex none = "#000000" := rfl
    have ha : autofitSize (fun s => measureFallback "a" "helv" s) 98 4 = 4 :=
      autofit_stop _ _ _ (by norm_num)
    simp only [insertText, hsplit, hcx, hexToRgb_black]
    simp only [procLines, insertLine, hstrip, lineGeom]
    norm_num [styleSfs, truthyQ, clampFont, maxFont, stylePadding, styleFontname,
      fontMapping]
    rw [show (if "normal" = "bold" then "hebo" else "helv") = "helv" from rfl]
    rw [if_neg (show ¬ ("a" = "") from by decide)]
    rw [ha]
  · norm_num

lemma procLines_blank (ctx : InsCtx) :
    ∀ (ls : List String) (j : ℕ), (∀ l ∈ ls, pyStrip l = "") →
      procLines ctx j ls = .ok [] := by
  intro ls
  induction ls with
  | nil => intro j _; rfl
  | cons raw rest ih =>
    intro j hb
    have h1 : pyStrip raw = "" := hb raw (List.mem_cons_self _ _)
    have h2 : insertLine ctx j raw = .ok none := by
      unfold insertLine
      rw [if_pos h1]
    simp only [procLines, h2]
    exact ih (j + 1) (fun l hl => hb l (List.mem_cons_of_mem _ hl))

/-- A text whose every line is blank after stripping produces no draw call
(every line is skipped before any geometry or font work). -/
lemma insertText_blank (measure : String → String → ℚ → ℚ) (rect : Rect)
    (txt : String) (ld : Option (List LineEntry)) (strict : Bool)
    (style : Option StyleDict) (col : ℚ × ℚ × ℚ)
    (hcol : hexToRgb (styleColorHex style) = .ok col)
    (hb : ∀ l ∈ pySplitOnChar '\n' txt, pyStrip l = "") :
    insertText measure rect txt ld strict style = .ok [] := by
  unfold insertText
  rw [hcol]
  exact procLines_blank _ _ _ hb

/-- C10.  A replacement value that is a non-empty string of whitespace and
newlines only is NOT skipped: for a placeholder without a stored style the
run still deletes the widgets intersecting the clean rectangle and applies
the redaction with the default white fill, draws no glyphs (every trimmed
line is blank), and counts the placeholder in the returned count (1). -/
theorem c10_whitespace_value_counted (measure : String → String → ℚ → ℚ)
    (doc : List Page) (p : Placeholder) (s : String) (ws : List Widget)
    (hst : p.style = none)
    (hpage : p.page < doc.length)
    (hw : doc[p.page].widgets = .ok ws)
    (hred : doc[p.page].redactOk = true)
    (hs : s ≠ "") (hblank : ∀ l ∈ pySplitOnChar '\n' s, pyStrip l = "") :
    generate_document measure doc [p] [(p.label, .str s)] =
      ([Event.openDoc] ++
        ((ws.filter (fun w => w.rect.intersects (expandRect ⟨p.x0, p.y0, p.x1, p.y1⟩))).map
          (Event.deleteWidget p.page)) ++
        [Event.redact p.page (expandRect ⟨p.x0, p.y0, p.x1, p.y1⟩) (1, 1, 1)] ++
        [Event.save], .ok 1) := by
  have hlook : lookupRepl [(p.label, .str s)] p.label = some (.str s) := by
    simp [lookupRepl]
  have hproc : processPlaceholder measure doc [(p.label, .str s)] p =
      (((ws.filter (fun w => w.rect.intersects (expandRect ⟨p.x0, p.y0, p.x1, p.y1⟩))).map
          (Event.deleteWidget p.page)) ++
        [Event.redact p.page (expandRect ⟨p.x0, p.y0, p.x1, p.y1⟩) (1, 1, 1)],
        none, 1) := by
    have hins : insertText measure ⟨p.x0, p.y0, p.x1, p.y1⟩ s p.lines_data
        p.strict_match (some {}) = .ok [] :=
      insertText_blank _ _ _ _ _ _ _ hexToRgb_black hblank
    unfold processPlaceholder
    rw [hlook]
    dsimp only [replTruthy, normalizeReplacement]
    rw [if_neg (by simp [hs])]
    rw [if_neg hs]
    rw [dif_pos hpage]
    rw [hst]
    rw [show effectiveStyleOf none none = ({} : StyleDict) from rfl]
    rw [show bgHex {} = .ok "#FFFFFF" from rfl]
    dsimp only
    rw [hexToRgb_white]
    dsimp only
    rw [hw]
    dsimp only
    rw [hred]
    rw [if_neg (show ¬ (("text" : String) = "image") from by decide)]
    rw [hins]
    simp [qTruthy]
  unfold generate_document
  rw [if_neg (by simp [hlook])]
  unfold generateGo
  rw [hproc]
  unfold generateGo
  simp

/-- Witness for C10: one text placeholder over a page with one overlapping
widget, replacement value " \n " (whitespace and a newline). -/
theorem c10_whitespace_value_counted_witness :
    generate_document measureFallback
        [⟨.ok [(⟨⟨0, 0, 10, 10⟩, "v"⟩ : Widget)], fun _ => .ok [], fun _ => .ok [],
          fun _ => .ok "", true⟩]
        [{ label := "a", page := 0, x0 := 0, y0 := 0, x1 := 10, y1 := 10 }]
        [("a", .str " \n ")] =
      ([Event.openDoc] ++
        (([(⟨⟨0, 0, 10, 10⟩, "v"⟩ : Widget)].filter
            (fun w => w.rect.intersects (expandRect ⟨0, 0, 10, 10⟩))).map
          (Event.deleteWidget 0)) ++
        [Event.redact 0 (expandRect ⟨0, 0, 10, 10⟩) (1, 1, 1)] ++
        [Event.save], .ok 1) :=
  c10_whitespace_value_counted measureFallback
    [⟨.ok [(⟨⟨0, 0, 10, 10⟩, "v"⟩ : Widget)], fun _ => .ok [], fun _ => .ok [],
      fun _ => .ok "", true⟩]
    { label := "a", page := 0, x0 := 0, y0 := 0, x1 := 10, y1 := 10 } " \n "
    [(⟨⟨0, 0, 10, 10⟩, "v"⟩ : Widget)] rfl (by norm_num) rfl rfl (by decide)
    (by decide)

/-! ## Sortedness and join lemmas for the detector -/

/-- The spec's ordering invariant: lines sorted top-to-bottom by `y0`,
falling back to `baseline` where `y0` is absent. -/
def linesOrdered (ls : List LineRec) : Prop :=
  List.Pairwise (fun a b => lineKey a ≤ lineKey b) ls

lemma mem_orderedIns {α : Type} (key : α → ℚ) (a x : α) :
    ∀ l : List α, x ∈ orderedIns key a l ↔ x = a ∨ x ∈ l := by
  intro l
  induction l with
  | nil => simp [orderedIns]
  | cons b t ih =>
    by_cases hc : key a ≤ key b
    · simp [orderedIns, hc]
    · simp only [orderedIns, if_neg hc, List.mem_cons, ih]
      tauto

lemma pairwise_orderedIns {α : Type} (key : α → ℚ) (a : α) :
    ∀ l : List α, l.Pairwise (fun x y => key x ≤ key y) →
      (orderedIns key a l).Pairwise (fun x y => key x ≤ key y) := by
  intro l
  induction l with
  | nil => intro _; simp [orderedIns]
  | cons b t ih =>
    intro hp
    rw [List.pairwise_cons] at hp
    by_cases hc : key a ≤ key b
    · rw [orderedIns, if_pos hc]
      rw [List.pairwise_cons]
      refine ⟨?_, List.pairwise_cons.mpr hp⟩
      intro x hx
      rcases List.mem_cons.mp hx with h1 | h2
      · subst h1; exact hc
      · exact le_trans hc (hp.1 x h2)
    · rw [orderedIns, if_neg hc]
      rw [List.pairwise_cons]
      refine ⟨?_, ih hp.2⟩
      intro x hx
      rcases (mem_orderedIns key a x t).mp hx with h1 | h2
      · subst h1; exact le_of_not_le hc
      · exact hp.1 x h2

lemma sortByKey_pairwise {α : Type} (key : α → ℚ) (l : List α) :
    (sortByKey key l).Pairwise (fun x y => key x ≤ key y) := by
  induction l with
  | nil => simp [sortByKey]
  | cons a t ih => exact pairwise_orderedIns key a _ ih

lemma pyJoin_foldl_len (sep : String) :
    ∀ (l : List String) (a : String),
      a.length ≤ (l.foldl (fun acc y => acc ++ sep ++ y) a).length := by
  intro l
  induction l with
  | nil => intro a; simp
  | cons y t ih =>
    intro a
    calc a.length ≤ (a ++ sep ++ y).length := by
          simp [String.length_append]
          omega
      _ ≤ _ := ih (a ++ sep ++ y)

lemma pyJoin_two_ne (x y : String) (t : List String) :
    pyJoin "\n" (x :: y :: t) ≠ "" := by
  intro hcon
  have h1 : (x ++ "\n" ++ y).length ≤ (pyJoin "\n" (x :: y :: t)).length := by
    simpa [pyJoin] using pyJoin_foldl_len "\n" t (x ++ "\n" ++ y)
  rw [hcon] at h1
  have hn : ("\n" : String).length = 1 := rfl
  have h2 : (x ++ "\n" ++ y).length = x.length + 1 + y.length := by
    rw [String.length_append, String.length_append, hn]
  have h3 : ("" : String).length = 0 := rfl
  omega

lemma pyJoin_blank_len (l : List String) (h : pyJoin "\n" l = "") :
    l.length ≤ 1 := by
  match l with
  | [] => simp
  | [x] => simp
  | x :: y :: t => exact absurd h (pyJoin_two_ne x y t)

/-! ## Per-strategy shape lemmas -/

lemma detectFromWidgets_shape (ws : List Widget) (rect : Rect) :
    (detectFromWidgets ws rect).2.length ≤ 1 ∧
      (detectFromWidgets ws rect).1 =
        pyJoin "\n" ((detectFromWidgets ws rect).2.map LineRec.text) := by
  induction ws with
  | nil => simp [detectFromWidgets, pyJoin]
  | cons w rest ih =>
    by_cases hc : w.rect.intersects rect = true ∧ w.field_value ≠ ""
    · simp [detectFromWidgets, hc, pyJoin, widgetLine]
    · simpa [detectFromWidgets, hc] using ih

lemma detectFromTextDict_shape (blocks : List Block) :
    linesOrdered (detectFromTextDict blocks).2 ∧
      (detectFromTextDict blocks).1 =
        pyJoin "\n" ((detectFromTextDict blocks).2.map LineRec.text) := by
  unfold detectFromTextDict
  set allLines := blocks.foldl
    (fun acc blk =>
      match blk.lines with
      | none => acc
      | some lns => acc ++ lns.filterMap tdLineRec) [] with hall
  by_cases hs : sortByKey lineKey allLines = []
  · simp [hs, pyJoin, linesOrdered]
  · simp only [if_neg hs]
    exact ⟨sortByKey_pairwise lineKey allLines, by simp⟩

lemma clusteredTagged_pairwise (ws : List Word) :
    (clusteredTagged ws).Pairwise (fun a b => a.1 ≤ b.1) := by
  unfold clusteredTagged
  rw [List.pairwise_map]
  exact sortByKey_pairwise id _

lemma detectFromWordClusters_shape (ws : List Word) :
    (detectFromWordClusters ws).1 =
      pyJoin "\n" ((detectFromWordClusters ws).2.map LineRec.text) ∧
      ((detectFromWordClusters ws).1 = "" →
        (detectFromWordClusters ws).2.length ≤ 1) := by
  unfold detectFromWordClusters
  by_cases hw : ws = []
  · simp [hw, pyJoin]
  · simp only [if_neg hw]
    refine ⟨by simp, ?_⟩
    intro ht
    have := pyJoin_blank_len _ ht
    simpa using this

lemma ocrBuild_shape (rect : Rect) (h : ℚ) (hh : 0 < h) :
    ∀ (l : List String) (i : ℕ),
      (∀ r ∈ ocrBuild rect h i l,
        r.y0 = none ∧ rect.y0 + ((i : ℚ) + 1) * h - 2 ≤ r.baseline) ∧
      (ocrBuild rect h i l).Pairwise (fun a b => lineKey a ≤ lineKey b) := by
  intro l
  induction l with
  | nil => intro i; simp [ocrBuild]
  | cons s rest ih =>
    intro i
    have hmono : ∀ r ∈ ocrBuild rect h (i + 1) rest,
        rect.y0 + ((i : ℚ) + 1) * h - 2 ≤ r.baseline := by
      intro r hr
      have hm := (ih (i + 1)).1 r hr
      refine le_trans ?_ hm.2
      push_cast
      nlinarith [le_of_lt hh]
    by_cases hb : pyStrip s = ""
    · simp only [ocrBuild, if_pos hb]
      exact ⟨fun r hr => ⟨((ih (i + 1)).1 r hr).1, hmono r hr⟩, (ih (i + 1)).2⟩
    · simp only [ocrBuild, if_neg hb]
      constructor
      · intro r hr
        rcases List.mem_cons.mp hr with h1 | h2
        · subst h1
          exact ⟨rfl, le_refl _⟩
        · exact ⟨((ih (i + 1)).1 r h2).1, hmono r h2⟩
      · rw [List.pairwise_cons]
        refine ⟨?_, (ih (i + 1)).2⟩
        intro r hr
        have hk : lineKey (ocrLine rect h i s) = rect.y0 + ((i : ℚ) + 1) * h - 2 := rfl
        have hkr : lineKey r = r.baseline := by
          simp [lineKey, ((ih (i + 1)).1 r hr).1]
        rw [hk, hkr]
        exact hmono r hr

lemma ocrBuild_map_text (rect : Rect) (h : ℚ) :
    ∀ (l : List String) (i : ℕ),
      (ocrBuild rect h i l).map LineRec.text =
        l.filterMap (fun s => if pyStrip s = "" then none else some (pyStrip s)) := by
  intro l
  induction l with
  | nil => intro i; simp [ocrBuild]
  | cons s rest ih =>
    intro i
    by_cases hb : pyStrip s = ""
    · simp only [ocrBuild, if_pos hb, List.filterMap_cons, hb]
      simpa using ih (i + 1)
    · simp only [ocrBuild, if_neg hb, List.filterMap_cons, List.map_cons]
      simp [hb, ih (i + 1), ocrLine]

lemma detectFromOcr_empty (page : Page) (rect : Rect)
    (h : (detectFromOcr page rect).1 = "") : (detectFromOcr page rect).2 = [] := by
  unfold detectFromOcr at *
  cases ho : page.ocr rect with
  | error e => simp
  | ok raw =>
    rw [ho] at h
    dsimp only at h ⊢
    by_cases hb : pyStrip raw = ""
    · simp [hb]
    · rw [if_neg hb] at h ⊢
      exact absurd h hb

lemma pairwise_len_le_one {α : Type} {R : α → α → Prop} :
    ∀ l : List α, l.length ≤ 1 → l.Pairwise R := by
  intro l h
  match l with
  | [] => exact List.Pairwise.nil
  | [x] => simp
  | x :: y :: t => simp at h

lemma pySplitOnChar_ne_nil (sep : Char) (s : String) : pySplitOnChar sep s ≠ [] := by
  unfold pySplitOnChar
  have h : ∀ cs : List Char,
      cs.foldr
        (fun c (acc : List (List Char)) =>
          if c = sep then [] :: acc
          else
            match acc with
            | h :: t => (c :: h) :: t
            | [] => [[c]])
        [[]] ≠ [] := by
    intro cs
    induction cs with
    | nil => simp
    | cons c rest ih =>
      simp only [List.foldr_cons]
      by_cases hc : c = sep
      · simp [hc]
      · rw [if_neg hc]
        cases hfold : rest.foldr _ [[]] with
        | nil => simp
        | cons a as => simp
  simp only [ne_eq, List.map_eq_nil_iff]
  exact h s.toList

lemma detectFromWordClusters_lines (ws : List Word) (t : String) (ls : List LineRec)
    (hd : detectFromWordClusters ws = (t, ls)) (ht : t ≠ "") :
    ls = (clusteredTagged ws).map Prod.snd := by
  unfold detectFromWordClusters at hd
  by_cases hw : ws = []
  · rw [if_pos hw] at hd
    simp only [Prod.mk.injEq] at hd
    exact absurd hd.1.symm ht
  · rw [if_neg hw] at hd
    simp only [Prod.mk.injEq] at hd
    exact hd.2.symm

lemma detectFromOcr_ok (page : Page) (rect : Rect) (t : String) (ls : List LineRec)
    (hd : detectFromOcr page rect = (t, ls)) (ht : t ≠ "") :
    ls = ocrBuild rect
      ((rect.y1 - rect.y0) / ((max (pySplitOnChar '\n' t).length 1 : ℕ) : ℚ)) 0
      (pySplitOnChar '\n' t) := by
  unfold detectFromOcr at hd
  cases ho : page.ocr rect with
  | error e =>
    rw [ho] at hd
    simp only [Prod.mk.injEq] at hd
    exact absurd hd.1.symm ht
  | ok raw =>
    rw [ho] at hd
    dsimp only at hd
    by_cases hb : pyStrip raw = ""
    · rw [if_pos hb] at hd
      simp only [Prod.mk.injEq] at hd
      exact absurd hd.1.symm ht
    · rw [if_neg hb] at hd
      simp only [Prod.mk.injEq] at hd
      obtain ⟨h1, h2⟩ := hd
      subst h1
      exact h2.symm

/-- Exhaustive description of the successful outcomes of `detect_text`:
which strategy produced the result, that its text is non-empty for the four
positive sources, and which leftover `lines_data` travels with the final
Empty fall-through. -/
lemma detect_text_cases (av : Bool) (pg : Page) (rect : Rect) (t s : String)
    (ls : List LineRec) (hok : detect_text av pg rect = .ok (t, s, ls)) :
    (s = "Form Field" ∧ t ≠ "" ∧ ∃ ws, pg.widgets = .ok ws ∧
        detectFromWidgets ws rect = (t, ls)) ∨
    (s = "Precise Layout" ∧ t ≠ "" ∧ ∃ bs, pg.textDict rect = .ok bs ∧
        detectFromTextDict bs = (t, ls)) ∨
    (s = "Clustered Words" ∧ t ≠ "" ∧ ∃ ws, pg.words rect = .ok ws ∧
        detectFromWordClusters ws = (t, ls)) ∨
    (s = "OCR" ∧ t ≠ "" ∧ detectFromOcr pg rect = (t, ls)) ∨
    (s = "Empty" ∧ t = "" ∧ (detectFromOcr pg rect = (t, ls) ∨
        ∃ ws, pg.words rect = .ok ws ∧ detectFromWordClusters ws = (t, ls))) := by
  unfold detect_text at hok
  cases hwid : pg.widgets with
  | error e => rw [hwid] at hok; simp at hok
  | ok ws =>
    rw [hwid] at hok
    dsimp only at hok
    cases hd1 : detectFromWidgets ws rect with
    | mk t1 l1 =>
      rw [hd1] at hok
      dsimp only at hok
      by_cases h1 : t1 ≠ ""
      · rw [if_pos h1] at hok
        simp only [Except.ok.injEq, Prod.mk.injEq] at hok
        obtain ⟨rfl, rfl, rfl⟩ := hok
        exact Or.inl ⟨rfl, h1, ws, rfl, hd1⟩
      · rw [if_neg h1] at hok
        cases htd : pg.textDict rect with
        | error e => rw [htd] at hok; simp at hok
        | ok bs =>
          rw [htd] at hok
          dsimp only at hok
          cases hd2 : detectFromTextDict bs with
          | mk t2 l2 =>
            rw [hd2] at hok
            dsimp only at hok
            by_cases h2 : t2 ≠ ""
            · rw [if_pos h2] at hok
              simp only [Except.ok.injEq, Prod.mk.injEq] at hok
              obtain ⟨rfl, rfl, rfl⟩ := hok
              exact Or.inr (Or.inl ⟨rfl, h2, bs, rfl, hd2⟩)
            · rw [if_neg h2] at hok
              cases hwd : pg.words rect with
              | error e => rw [hwd] at hok; simp at hok
              | ok vs =>
                rw [hwd] at hok
                dsimp only at hok
                cases hd3 : detectFromWordClusters vs with
                | mk t3 l3 =>
                  rw [hd3] at hok
                  dsimp only at hok
                  by_cases h3 : t3 ≠ ""
                  · rw [if_pos h3] at hok
                    simp only [Except.ok.injEq, Prod.mk.injEq] at hok
                    obtain ⟨rfl, rfl, rfl⟩ := hok
                    exact Or.inr (Or.inr (Or.inl ⟨rfl, h3, vs, rfl, hd3⟩))
                  · rw [if_neg h3] at hok
                    push_neg at h3
                    cases av with
                    | false =>
                      rw [if_neg (by simp : ¬ (false = true))] at hok
                      simp only [Except.ok.injEq, Prod.mk.injEq] at hok
                      obtain ⟨rfl, rfl, rfl⟩ := hok
                      exact Or.inr (Or.inr (Or.inr (Or.inr
                        ⟨rfl, h3, Or.inr ⟨vs, rfl, hd3⟩⟩)))
                    | true =>
                      rw [if_pos rfl] at hok
                      cases hd4 : detectFromOcr pg rect with
                      | mk t4 l4 =>
                        rw [hd4] at hok
                        dsimp only at hok
                        by_cases h4 : t4 ≠ ""
                        · rw [if_pos h4] at hok
                          simp only [Except.ok.injEq, Prod.mk.injEq] at hok
                          obtain ⟨rfl, rfl, rfl⟩ := hok
                          exact Or.inr (Or.inr (Or.inr (Or.inl ⟨rfl, h4, rfl⟩)))
                        · rw [if_neg h4] at hok
                          push_neg at h4
                          simp only [Except.ok.injEq, Prod.mk.injEq] at hok
                          obtain ⟨rfl, rfl, rfl⟩ := hok
                          exact Or.inr (Or.inr (Or.inr (Or.inr
                            ⟨rfl, h4, Or.inl rfl⟩)))

/-- C3, amended.  On any rectangle of width and height at least 1, a
successful `detect_text` yields lines sorted top-to-bottom by
`y0`-else-`baseline` for every source EXCEPT `Clustered Words`: the
clustered strategy orders its lines by ascending cluster key (the
first-seen word center of each cluster), not by minimum member `y0`, and
that order can violate the `y0` invariant (see the counterexample). -/
theorem c3_lines_ordering (av : Bool) (pg : Page) (rect : Rect)
    (_hwd : 1 ≤ rect.x1 - rect.x0) (hht : 1 ≤ rect.y1 - rect.y0)
    (t s : String) (ls : List LineRec)
    (hok : detect_text av pg rect = .ok (t, s, ls)) :
    (s ≠ "Clustered Words" → linesOrdered ls) ∧
    (s = "Clustered Words" → ∃ ws, pg.words rect = .ok ws ∧
      ls = (clusteredTagged ws).map Prod.snd ∧
      (clusteredTagged ws).Pairwise (fun a b => a.1 ≤ b.1)) := by
  rcases detect_text_cases av pg rect t s ls hok with
    ⟨rfl, ht, ws, hw, hd⟩ | ⟨rfl, ht, bs, hb, hd⟩ | ⟨rfl, ht, ws, hw, hd⟩ |
    ⟨rfl, ht, hd⟩ | ⟨rfl, ht, hrest⟩
  · refine ⟨fun _ => ?_, fun h => absurd h (by decide)⟩
    have hs := detectFromWidgets_shape ws rect
    rw [hd] at hs
    exact pairwise_len_le_one ls hs.1
  · refine ⟨fun _ => ?_, fun h => absurd h (by decide)⟩
    have hs := detectFromTextDict_shape bs
    rw [hd] at hs
    exact hs.1
  · refine ⟨fun hne => absurd rfl hne,
      fun _ => ⟨ws, hw, ?_, clusteredTagged_pairwise ws⟩⟩
    exact detectFromWordClusters_lines ws t ls hd ht
  · refine ⟨fun _ => ?_, fun h => absurd h (by decide)⟩
    have hls := detectFromOcr_ok pg rect t ls hd ht
    have hone : 1 ≤ max (pySplitOnChar '\n' t).length 1 := le_max_right _ _
    have hpos : 0 < (rect.y1 - rect.y0) /
        ((max (pySplitOnChar '\n' t).length 1 : ℕ) : ℚ) := by
      apply div_pos (by linarith)
      exact_mod_cast lt_of_lt_of_le zero_lt_one (by exact_mod_cast hone)
    rw [hls]
    exact (ocrBuild_shape rect _ hpos _ 0).2
  · refine ⟨fun _ => ?_, fun h => absurd h (by decide)⟩
    rcases hrest with hocr | ⟨ws, hw, hd⟩
    · have h2 : ls = [] := by
        have h3 := detectFromOcr_empty pg rect (by rw [hocr]; exact ht)
        rw [hocr] at h3
        exact h3
      rw [h2]
      exact List.Pairwise.nil
    · have hs := detectFromWordClusters_shape ws
      rw [hd] at hs
      exact pairwise_len_le_one ls (hs.2 ht)

/-- Witness for C3's amended theorem at a page with nothing on it: the
Empty result with no lines. -/
theorem c3_lines_ordering_witness :
    ("Empty" ≠ "Clustered Words" → linesOrdered []) ∧
    ("Empty" = "Clustered Words" →
      ∃ ws, (fun _ => .ok [] : Rect → Except PyErr (List Word)) ⟨0, 0, 10, 10⟩ = .ok ws ∧
        ([] : List LineRec) = (clusteredTagged ws).map Prod.snd ∧
        (clusteredTagged ws).Pairwise (fun a b => a.1 ≤ b.1)) :=
  c3_lines_ordering false
    ⟨.ok [], fun _ => .ok [], fun _ => .ok [], fun _ => .ok "", true⟩
    ⟨0, 0, 10, 10⟩ (by norm_num) (by norm_num) "" "Empty" [] rfl

/-- C8, amended.  The detected text equals the newline-join of the line
texts for the form-field, precise-layout and clustered-words sources and
for the Empty fall-through; an empty text always means source Empty (but
the Empty result can carry leftover line records whose texts are all
empty).  For the OCR source the text is the stripped engine output and the
line records keep only its non-blank lines, each trimmed — so the join can
differ from the text (see the counterexample). -/
theorem c8_text_join_invariant (av : Bool) (pg : Page) (rect : Rect)
    (t s : String) (ls : List LineRec)
    (hok : detect_text av pg rect = .ok (t, s, ls)) :
    (s ≠ "OCR" → t = pyJoin "\n" (ls.map LineRec.text)) ∧
    (t = "" → s = "Empty") ∧
    (s = "OCR" → ls.map LineRec.text =
      (pySplitOnChar '\n' t).filterMap
        (fun l => if pyStrip l = "" then none else some (pyStrip l))) := by
  rcases detect_text_cases av pg rect t s ls hok with
    ⟨rfl, ht, ws, hw, hd⟩ | ⟨rfl, ht, bs, hb, hd⟩ | ⟨rfl, ht, ws, hw, hd⟩ |
    ⟨rfl, ht, hd⟩ | ⟨rfl, ht, hrest⟩
  · refine ⟨fun _ => ?_, fun h => absurd h ht, fun h => absurd h (by decide)⟩
    have hs := detectFromWidgets_shape ws rect
    rw [hd] at hs
    exact hs.2
  · refine ⟨fun _ => ?_, fun h => absurd h ht, fun h => absurd h (by decide)⟩
    have hs := detectFromTextDict_shape bs
    rw [hd] at hs
    exact hs.2
  · refine ⟨fun _ => ?_, fun h => absurd h ht, fun h => absurd h (by decide)⟩
    have hs := detectFromWordClusters_shape ws
    rw [hd] at hs
    exact hs.1
  · refine ⟨fun hne => absurd rfl hne, fun h => absurd h ht, fun _ => ?_⟩
    have hls := detectFromOcr_ok pg rect t ls hd ht
    rw [hls]
    exact ocrBuild_map_text rect _ _ 0
  · refine ⟨fun _ => ?_, fun _ => rfl, fun h => absurd h (by decide)⟩
    rcases hrest with hocr | ⟨ws, hw, hd⟩
    · have h2 : ls = [] := by
        have h3 := detectFromOcr_empty pg rect (by rw [hocr]; exact ht)
        rw [hocr] at h3
        exact h3
      rw [h2, ht]
      rfl
    · have hs := detectFromWordClusters_shape ws
      rw [hd] at hs
      exact hs.1

/-- Witness for C8's amended theorem, at a page whose text dict holds one
line "ab". -/
theorem c8_text_join_invariant_witness :
    ("Precise Layout" ≠ "OCR" →
      "ab" = pyJoin "\n" (([(⟨"ab", 3, some 1, some 3, some 10, some "helv",
        some 0⟩ : LineRec)]).map LineRec.text)) ∧
    ("ab" = "" → "Precise Layout" = "Empty") ∧
    ("Precise Layout" = "OCR" →
      ([(⟨"ab", 3, some 1, some 3, some 10, some "helv",
        some 0⟩ : LineRec)]).map LineRec.text =
      (pySplitOnChar '\n' "ab").filterMap
        (fun l => if pyStrip l = "" then none else some (pyStrip l))) :=
  c8_text_join_invariant false
    ⟨.ok [], fun _ => .ok [⟨some [⟨[⟨"ab", none, none, none, none⟩],
      some ⟨0, 1, 5, 3⟩⟩]⟩], fun _ => .ok [], fun _ => .ok "", true⟩
    ⟨0, 0, 10, 10⟩ "ab" "Precise Layout"
    [⟨"ab", 3, some 1, some 3, some 10, some "helv", some 0⟩] rfl

/-- C3, counterexample.  Rectangle 100×100 (width, height ≥ 1), no widgets,
no text dict, two words: "a" with box `y ∈ [9.5, 10.5]` (center 10) and "b"
with box `y ∈ [9, 21]` (center 15).  The centers differ by exactly 5, so
the words form two clusters keyed 10 and 15, emitted in that key order —
but the second line's `y0` (9) is above the first line's `y0` (9.5), so
the returned lines are NOT sorted top-to-bottom by `y0`. -/
theorem c3_counterexample :
    (1 : ℚ) ≤ (100 : ℚ) - 0 ∧
    detect_text false
      ⟨.ok [], fun _ => .ok [],
        fun _ => .ok [⟨0, 19/2, 10, 21/2, "a"⟩, ⟨0, 9, 10, 21, "b"⟩],
        fun _ => .ok "", true⟩ ⟨0, 0, 100, 100⟩ =
      .ok ("a\nb", "Clustered Words",
        [⟨"a", 103/10, some (19/2), some (21/2), some (4/5), none, none⟩,
          ⟨"b", 93/5, some 9, some 21, some (48/5), none, none⟩]) ∧
    ¬ linesOrdered
        [⟨"a", 103/10, some (19/2), some (21/2), some (4/5), none, none⟩,
          ⟨"b", 93/5, some 9, some 21, some (48/5), none, none⟩] := by
  refine ⟨by norm_num, ?_, ?_⟩
  · have hc : detectFromWordClusters
        [(⟨0, 19/2, 10, 21/2, "a"⟩ : Word), ⟨0, 9, 10, 21, "b"⟩] =
        ("a\nb",
          [⟨"a", 103/10, some (19/2), some (21/2), some (4/5), none, none⟩,
            ⟨"b", 93/5, some 9, some 21, some (48/5), none, none⟩]) := by
      norm_num [detectFromWordClusters, clusteredTagged, clusterWords,
        addWordToClusters, wordCenter, sortByKey, orderedIns, assocFind,
        mkClusterLine, pyJoin, abs_of_nonneg, abs_of_nonpos]
      rw [if_neg (show ¬ ([(⟨0, 19/2, 10, 21/2, "a"⟩ : Word), ⟨0, 9, 10, 21, "b"⟩]
        = []) from by simp)]
      rfl
    simp only [detect_text]
    norm_num [detectFromWidgets, detectFromTextDict, sortByKey, hc]
    intro h
    exact absurd h (by decide)
  · norm_num [linesOrdered, lineKey, List.pairwise_cons]

/-- C8, counterexample.  (a) An OCR output with a blank interior line,
"a\n\nb": the result text keeps the blank line but the line records drop
it, so the text is not the newline-join of the line texts.  (b) A single
extracted word with empty text: the detected text is empty and the source
is Empty, yet the returned `lines_data` still holds the leftover cluster
line — `empty text ⇒ lines empty` fails. -/
theorem c8_counterexample :
    (detect_text true
        ⟨.ok [], fun _ => .ok [], fun _ => .ok [], fun _ => .ok "a\n\nb", true⟩
        ⟨0, 0, 10, 10⟩ =
      .ok ("a\n\nb", "OCR",
        [⟨"a", 4/3, none, none, some (8/3), none, none⟩,
          ⟨"b", 8, none, none, some (8/3), none, none⟩]) ∧
      "a\n\nb" ≠ pyJoin "\n"
        (([(⟨"a", 4/3, none, none, some (8/3), none, none⟩ : LineRec),
          ⟨"b", 8, none, none, some (8/3), none, none⟩]).map LineRec.text)) ∧
    (detect_text false
        ⟨.ok [], fun _ => .ok [], fun _ => .ok [⟨0, 0, 10, 10, ""⟩],
          fun _ => .ok "", true⟩ ⟨0, 0, 10, 10⟩ =
      .ok ("", "Empty", [⟨"", 8, some 0, some 10, some 8, none, none⟩]) ∧
      ([(⟨"", 8, some 0, some 10, some 8, none, none⟩ : LineRec)]) ≠ []) := by
  refine ⟨⟨?_, by decide⟩, ?_, by simp⟩
  · have hsplit : pySplitOnChar '\n' "a\n\nb" = ["a", "", "b"] := rfl
    have hstrip : pyStrip "a\n\nb" = "a\n\nb" := rfl
    have hs1 : pyStrip "a" = "a" := rfl
    have hs2 : pyStrip "" = "" := rfl
    have hs3 : pyStrip "b" = "b" := rfl
    have hocr : detectFromOcr
        ⟨.ok [], fun _ => .ok [], fun _ => .ok [], fun _ => .ok "a\n\nb", true⟩
        ⟨0, 0, 10, 10⟩ =
        ("a\n\nb",
          [⟨"a", 4/3, none, none, some (8/3), none, none⟩,
            ⟨"b", 8, none, none, some (8/3), none, none⟩]) := by
      norm_num [detectFromOcr, hstrip, hsplit, ocrBuild, ocrLine, hs1, hs2, hs3]
      rw [if_neg (show ¬ (("a\n\nb" : String) = "") from by decide)]
      rw [if_neg (show ¬ (("a" : String) = "") from by decide)]
      rw [if_neg (show ¬ (("b" : String) = "") from by decide)]
    simp only [detect_text]
    norm_num [detectFromWidgets, detectFromTextDict, detectFromWordClusters,
      sortByKey, hocr]
    intro h
    exact absurd h (by decide)
  · have hc : detectFromWordClusters [(⟨0, 0, 10, 10, ""⟩ : Word)] =
        ("", [⟨"", 8, some 0, some 10, some 8, none, none⟩]) := by
      norm_num [detectFromWordClusters, clusteredTagged, clusterWords,
        addWordToClusters, wordCenter, sortByKey, orderedIns, assocFind,
        mkClusterLine, pyJoin, abs_of_nonneg, abs_of_nonpos]
    simp only [detect_text]
    norm_num [detectFromWidgets, detectFromTextDict, sortByKey, hc]

end PdfEngine
